import Mathlib

/-!
Verification of the solver framework in `src/lib/BaseSolver.ts` of
tscircuit/solver-utils.

The TypeScript `BaseSolver` class is modelled as a polymorphic state record
`SolverState σ` (σ is the subclass-specific private state) together with a
`SolverBehavior σ` record holding the subclass extension points:
`_setup` (here `setupFn`), `_step` (here `stepFn`, returning the mutated
state plus an optional thrown exception rendered as a string),
`tryFinalAcceptance`, and the optional `computeProgress` hook (whose
presence the source detects with a `"computeProgress" in this` check,
modelled by an `Option`).

Field name mapping (TypeScript → Lean): `MAX_ITERATIONS` → `MAX_ITERATIONS`,
`solved`/`failed`/`iterations`/`progress`/`error`/`stats`/`timeToSolve`
keep their names, `_setupDone` → `setupDone`.  The unused declared field
`failedSubSolvers` (never read or written by the core) is omitted, and
`activeSubSolver` is modelled inside the pipeline-specific inner state,
since the base class never touches it.  JavaScript `Record<string, _>`
objects are modelled as insertion-ordered association lists with
JS-assignment semantics (`setEntry` overwrites in place or appends).
`performance.now()` / `Date.now()` values are supplied as explicit clock
parameters.  `progress` (a JS number in [0,1]) is modelled as ℚ.
-/

/-- State of a `BaseSolver` instance; `σ` is the subclass-private state. -/
structure SolverState (σ : Type) where
  MAX_ITERATIONS : Nat
  solved : Bool
  failed : Bool
  iterations : Nat
  progress : ℚ
  error : Option String
  stats : List (String × Int)
  timeToSolve : Option Int
  setupDone : Bool
  inner : σ

/-- Subclass extension points of `BaseSolver`.  `stepFn` models `_step()`:
it may mutate the whole instance and returns `some e` when it throws, where
`e` is the string rendering of the thrown value (mutations made before the
throw persist, as in JavaScript).  `name` is `this.constructor.name`. -/
structure SolverBehavior (σ : Type) where
  name : String
  setupFn : SolverState σ → SolverState σ
  stepFn : SolverState σ → SolverState σ × Option String
  tryFinalAcceptance : SolverState σ → SolverState σ
  computeProgress : Option (SolverState σ → ℚ)

/-- Model of `setup()`: runs `_setup()` then sets `_setupDone`, but only
when `_setupDone` is not yet set (inside `step()` the call is additionally
guarded by `!this._setupDone`, so the two guards coincide). -/
def runSetup {σ : Type} (b : SolverBehavior σ) (s : SolverState σ) : SolverState σ :=
  if s.setupDone then s else { b.setupFn s with setupDone := true }

/-- Code that runs after a non-throwing `_step()` inside `step()`: the
final-acceptance attempt, the out-of-iterations failure, and the
`computeProgress` hook. -/
def postStep {σ : Type} (b : SolverBehavior σ) (s2 : SolverState σ) : SolverState σ :=
  let s3 := if s2.solved = false ∧ s2.MAX_ITERATIONS ≤ s2.iterations
    then b.tryFinalAcceptance s2 else s2
  let s4 := if s3.solved = false ∧ s3.MAX_ITERATIONS ≤ s3.iterations
    then { s3 with error := some (b.name ++ " ran out of iterations"), failed := true }
    else s3
  match b.computeProgress with
  | some f => { s4 with progress := f s4 }
  | none => s4

/-- The `this.iterations++` statement of `step()`. -/
def bumpIterations {σ : Type} (t : SolverState σ) : SolverState σ :=
  { t with iterations := t.iterations + 1 }

/-- The part of `step()` past the early terminal-state returns: increment
`iterations`, run `_step()` inside the try/catch, then `postStep`. -/
def stepBody {σ : Type} (b : SolverBehavior σ) (t : SolverState σ) :
    SolverState σ × Option String :=
  match b.stepFn (bumpIterations t) with
  | (s2, some e) =>
      ({ s2 with error := some (b.name ++ " error: " ++ e), failed := true }, some e)
  | (s2, none) => (postStep b s2, none)

/-- Model of `BaseSolver.step()`.  The second component is the exception
re-thrown to the caller (`none` when the call returns normally). -/
def solverStep {σ : Type} (b : SolverBehavior σ) (s : SolverState σ) :
    SolverState σ × Option String :=
  let s0 := runSetup b s
  if s0.solved = true then (s0, none)
  else if s0.failed = true then (s0, none)
  else stepBody b s0

/-- The `while (!this.solved && !this.failed) this.step()` loop of
`solve()`, run for at most `fuel` iterations of the loop body; an exception
from `step()` aborts the loop and propagates. -/
def solveFuel {σ : Type} (b : SolverBehavior σ) :
    Nat → SolverState σ → SolverState σ × Option String
  | 0, s => (s, none)
  | Nat.succ n, s =>
    if s.solved = true ∨ s.failed = true then (s, none)
    else
      match solverStep b s with
      | (s', some e) => (s', some e)
      | (s', none) => solveFuel b n s'

/-- Model of `solve()`: run the loop, then store the elapsed wall-clock
time `t1 - t0` into `timeToSolve` (the two `Date.now()` readings are
supplied as parameters).  When an exception escapes the loop,
`timeToSolve` is not written, as in the source. -/
def solveTimed {σ : Type} (b : SolverBehavior σ) (fuel : Nat) (t0 t1 : Int)
    (s : SolverState σ) : SolverState σ × Option String :=
  match solveFuel b fuel s with
  | (s', some e) => (s', some e)
  | (s', none) => ({ s' with timeToSolve := some (t1 - t0) }, none)

/-- Iterate `step()` `n` times, ignoring re-thrown exceptions (used to talk
about arbitrary sequences of `step()` calls). -/
def stepsN {σ : Type} (b : SolverBehavior σ) : Nat → SolverState σ → SolverState σ
  | 0, s => s
  | Nat.succ n, s => stepsN b n (solverStep b s).1

/-- Initial field values from the `BaseSolver` class-property initializers
(`MAX_ITERATIONS = 100e3`, flags false, counters zero, empty records). -/
def initSolverState {σ : Type} (inner : σ) : SolverState σ :=
  { MAX_ITERATIONS := 100000, solved := false, failed := false, iterations := 0,
    progress := 0, error := none, stats := [], timeToSolve := none,
    setupDone := false, inner := inner }

/-!
Association lists with JavaScript object-assignment semantics:
`obj[k] = v` overwrites an existing key in place (keeping its position in
the insertion order) and otherwise appends.
-/

/-- JS `obj[k] = v`. -/
def setEntry {α : Type} : List (String × α) → String → α → List (String × α)
  | [], k, v => [(k, v)]
  | (k', v') :: rest, k, v =>
      if k' = k then (k', v) :: rest else (k', v') :: setEntry rest k v

/-- JS `obj[k]` (`none` models `undefined`). -/
def lookupEntry {α : Type} : String → List (String × α) → Option α
  | _, [] => none
  | k, (k', v) :: rest => if k' = k then some v else lookupEntry k rest

/-!
The pipeline layer: `BasePipelineSolver` from the same file.  Children are
full solvers; to keep the embedding first-order all children of a given
pipeline share a private-state type `χ` and a stage-output type `V`
(a concrete pipeline can always take `χ`/`V` to be sum types of its
stages' types).  The pipeline's own private state is `PipelineInner`, so a
pipeline is a `SolverState (PipelineInner ι χ V)` driven by the base
`solverStep` with `_step` given by `pipelineStepCore`.  The named field
`(this as any)[stageDef.solverName] = this.activeSubSolver` creates an
alias of the active child; the model keeps `namedSolvers` in sync with
every mutation of the active child, which is what the shared mutable
reference does in JavaScript.
-/

/-- A child solver instance: its behavior, current state, and its
`getOutput()` method (`none` models the default `null`). -/
structure ChildSolver (χ V : Type) where
  behavior : SolverBehavior χ
  state : SolverState χ
  output : SolverState χ → Option V

/-- Subclass-private state of `BasePipelineSolver` (its declared fields
beyond the `BaseSolver` ones), plus the dynamically-created named stage
fields, as `namedSolvers`. -/
structure PipelineInner (ι χ V : Type) where
  inputProblem : ι
  currentPipelineStageIndex : Nat
  pipelineOutputs : List (String × V)
  startTimeOfStage : List (String × Int)
  endTimeOfStage : List (String × Int)
  timeSpentOnStage : List (String × Int)
  firstIterationOfStage : List (String × Nat)
  activeSubSolver : Option (ChildSolver χ V)
  namedSolvers : List (String × ChildSolver χ V)

/-- A `PipelineStep` stage definition.  `mkSolver` combines
`getConstructorParams(this)` and `new stageDef.solverClass(...)`: given the
pipeline instance it builds the fresh child. -/
structure PipelineStageDef (ι χ V : Type) where
  solverName : String
  mkSolver : SolverState (PipelineInner ι χ V) → ChildSolver χ V
  onSolved : Option (SolverState (PipelineInner ι χ V) → SolverState (PipelineInner ι χ V))

/-- Model of `BasePipelineSolver._step()`.  `tNow` is the value
`performance.now()` returns during this call (it is read at most once per
call).  The returned `Option String` is the exception propagating out of
the active child's `step()`, if any. -/
def pipelineStepCore {ι χ V : Type} (defs : List (PipelineStageDef ι χ V)) (tNow : Int)
    (p : SolverState (PipelineInner ι χ V)) :
    SolverState (PipelineInner ι χ V) × Option String :=
  match defs[p.inner.currentPipelineStageIndex]? with
  | none => ({ p with solved := true }, none)
  | some sd =>
    match p.inner.activeSubSolver with
    | some child =>
      let cr := solverStep child.behavior child.state
      let child2 : ChildSolver χ V := { child with state := cr.1 }
      let p2 := { p with inner := { p.inner with
          activeSubSolver := some child2,
          namedSolvers := setEntry p.inner.namedSolvers sd.solverName child2 } }
      match cr.2 with
      | some e => (p2, some e)
      | none =>
        if cr.1.solved = true then
          let n := sd.solverName
          let spent := tNow - ((lookupEntry n p2.inner.startTimeOfStage).getD 0)
          let p3 := { p2 with inner := { p2.inner with
              endTimeOfStage := setEntry p2.inner.endTimeOfStage n tNow,
              timeSpentOnStage := setEntry p2.inner.timeSpentOnStage n spent,
              pipelineOutputs := match child2.output cr.1 with
                | some v => setEntry p2.inner.pipelineOutputs n v
                | none => p2.inner.pipelineOutputs } }
          let p4 := match sd.onSolved with
            | some f => f p3
            | none => p3
          ({ p4 with inner := { p4.inner with
              activeSubSolver := none,
              currentPipelineStageIndex := p4.inner.currentPipelineStageIndex + 1 } }, none)
        else if cr.1.failed = true then
          ({ p2 with
              failed := true,
              error := cr.1.error,
              inner := { p2.inner with activeSubSolver := none } }, none)
        else
          (p2, none)
    | none =>
      let child := sd.mkSolver p
      ({ p with inner := { p.inner with
          activeSubSolver := some child,
          namedSolvers := setEntry p.inner.namedSolvers sd.solverName child,
          timeSpentOnStage := setEntry p.inner.timeSpentOnStage sd.solverName 0,
          startTimeOfStage := setEntry p.inner.startTimeOfStage sd.solverName tNow,
          firstIterationOfStage :=
            setEntry p.inner.firstIterationOfStage sd.solverName p.iterations } }, none)

/-- Model of `getCurrentStageName()`. -/
def getCurrentStageName {ι χ V : Type} (defs : List (PipelineStageDef ι χ V))
    (p : SolverState (PipelineInner ι χ V)) : String :=
  match defs[p.inner.currentPipelineStageIndex]? with
  | some sd => sd.solverName
  | none => "none"

/-- Model of `getStageProgress()`. -/
def getStageProgress {ι χ V : Type} (defs : List (PipelineStageDef ι χ V))
    (p : SolverState (PipelineInner ι χ V)) : ℚ :=
  if defs.length = 0 then 1
  else
    let cur : ℚ := match p.inner.activeSubSolver with
      | some c => c.state.progress
      | none => 0
    ((p.inner.currentPipelineStageIndex : ℚ) + cur) / (defs.length : ℚ)

/-- One row of the `getStageStats()` result. -/
structure StageStat where
  timeSpent : Int
  iterations : Int
  completed : Bool
deriving DecidableEq

/-- The body of the `getStageStats()` loop for one stage name: it reads
only the pipeline instance and the stage's name.  `findIndex` yields `-1`
when no stage bears the name, hence the `Int`-valued comparison. -/
def stageStatFor {ι χ V : Type} (defs : List (PipelineStageDef ι χ V))
    (p : SolverState (PipelineInner ι χ V)) (name : String) : StageStat :=
  let foundIdx := defs.findIdx (fun sd => sd.solverName == name)
  let jsFindIndex : Int := if foundIdx < defs.length then (foundIdx : Int) else -1
  { timeSpent := (lookupEntry name p.inner.timeSpentOnStage).getD 0,
    iterations :=
      if name = getCurrentStageName defs p then
        (p.iterations : Int) - ((lookupEntry name p.inner.firstIterationOfStage).getD 0 : Nat)
      else 0,
    completed := decide (jsFindIndex < (p.inner.currentPipelineStageIndex : Int)) }

/-- Model of `getStageStats()`: one entry per stage of the pipeline
definition, written into a JS object keyed by stage name. -/
def getStageStats {ι χ V : Type} (defs : List (PipelineStageDef ι χ V))
    (p : SolverState (PipelineInner ι χ V)) : List (String × StageStat) :=
  defs.foldl (fun acc sd => setEntry acc sd.solverName (stageStatFor defs p sd.solverName)) []

/-- Model of `getAllOutputs()` (the JS shallow copy is the identity here). -/
def getAllOutputs {ι χ V : Type} (p : SolverState (PipelineInner ι χ V)) :
    List (String × V) := p.inner.pipelineOutputs

/-- The behavior record of a concrete pipeline subclass named `nm` with
stage list `defs`: `_setup` is not overridden, `_step` is
`pipelineStepCore`, `tryFinalAcceptance` is not overridden, and
`computeProgress` exists and returns `getStageProgress()`. -/
def pipelineBehavior {ι χ V : Type} (nm : String) (defs : List (PipelineStageDef ι χ V))
    (tNow : Int) : SolverBehavior (PipelineInner ι χ V) :=
  { name := nm, setupFn := id, stepFn := pipelineStepCore defs tNow,
    tryFinalAcceptance := id,
    computeProgress := some (fun p => getStageProgress defs p) }

/-- One outer `step()` call on a pipeline solver. -/
def pipeStep {ι χ V : Type} (nm : String) (defs : List (PipelineStageDef ι χ V))
    (tNow : Int) (p : SolverState (PipelineInner ι χ V)) :
    SolverState (PipelineInner ι χ V) × Option String :=
  solverStep (pipelineBehavior nm defs tNow) p

/-- A sequence of outer `step()` calls, one per clock reading in `ts`
(re-thrown exceptions are ignored by the driver; a terminal pipeline
no-ops anyway). -/
def iterateSteps {ι χ V : Type} (nm : String) (defs : List (PipelineStageDef ι χ V))
    (ts : List Int) (p : SolverState (PipelineInner ι χ V)) :
    SolverState (PipelineInner ι χ V) :=
  ts.foldl (fun q t => (pipeStep nm defs t q).1) p

/-- A freshly constructed pipeline: `super()` field initializers, then the
constructor stores `inputProblem` and sets `MAX_ITERATIONS = 1e6`. -/
def initPipeline {ι χ V : Type} (input : ι) : SolverState (PipelineInner ι χ V) :=
  { initSolverState
      { inputProblem := input, currentPipelineStageIndex := 0, pipelineOutputs := [],
        startTimeOfStage := [], endTimeOfStage := [], timeSpentOnStage := [],
        firstIterationOfStage := [], activeSubSolver := none, namedSolvers := [] }
    with MAX_ITERATIONS := 1000000 }

/-!
Concrete instances used to evaluate the model on small inputs: a child
solver that solves on its first `_step()`, one that throws, one that never
terminates, and small pipelines built from them.
-/

/-- A child whose `_step()` sets `solved = true` immediately. -/
def solveNowBehavior (nm : String) : SolverBehavior Unit :=
  { name := nm, setupFn := id,
    stepFn := fun s => ({ s with solved := true }, none),
    tryFinalAcceptance := id, computeProgress := none }

/-- A child whose `_step()` throws `msg`. -/
def throwBehavior (nm msg : String) : SolverBehavior Unit :=
  { name := nm, setupFn := id, stepFn := fun s => (s, some msg),
    tryFinalAcceptance := id, computeProgress := none }

/-- A child whose `_step()` does nothing (never solves, never throws). -/
def idleBehavior (nm : String) : SolverBehavior Unit :=
  { name := nm, setupFn := id, stepFn := fun s => (s, none),
    tryFinalAcceptance := id, computeProgress := none }

/-- A stage whose child solves immediately and declares output `out`. -/
def demoStage (stageName childName : String) (out : Option Nat) :
    PipelineStageDef Unit Unit Nat :=
  { solverName := stageName,
    mkSolver := fun _ =>
      { behavior := solveNowBehavior childName,
        state := initSolverState (), output := fun _ => out },
    onSolved := none }

/-- A stage whose child throws `msg` on its first step. -/
def demoThrowStage (stageName childName msg : String) :
    PipelineStageDef Unit Unit Nat :=
  { solverName := stageName,
    mkSolver := fun _ =>
      { behavior := throwBehavior childName msg,
        state := initSolverState (), output := fun _ => none },
    onSolved := none }

/-- Two-stage demo pipeline; both children solve on their first step. -/
def demoDefs2 : List (PipelineStageDef Unit Unit Nat) :=
  [demoStage "A" "ChildA" (some 1), demoStage "B" "ChildB" (some 2)]

/-- One-stage demo pipeline whose child's `getOutput()` returns `null`. -/
def demoDefsNullOut : List (PipelineStageDef Unit Unit Nat) :=
  [demoStage "A" "ChildA" none]

/-- One-stage demo pipeline whose child throws `"boom"`. -/
def demoDefsThrow : List (PipelineStageDef Unit Unit Nat) :=
  [demoThrowStage "A" "ChildA" "boom"]

/-- The two-stage demo pipeline after `n` outer `step()` calls at clock
readings 10, 20, 30, ... -/
def demoPipe2 (ts : List Int) : SolverState (PipelineInner Unit Unit Nat) :=
  iterateSteps "PipeDemo" demoDefs2 ts (initPipeline ())

/-!
Frame conditions on subclass hooks, used as hypotheses when a claim speaks
about "every solver": a hook satisfying them may do anything to the
subclass-private state, `stats`, `progress`, `error` or `timeToSolve`, but
leaves the driver's bookkeeping fields alone.
-/

/-- The hook does not touch `iterations`, `MAX_ITERATIONS` or `_setupDone`. -/
def PreservesBudget {σ : Type} (f : SolverState σ → SolverState σ) : Prop :=
  ∀ s, (f s).iterations = s.iterations ∧ (f s).MAX_ITERATIONS = s.MAX_ITERATIONS ∧
    (f s).setupDone = s.setupDone

/-- The hook additionally does not touch `solved` or `failed`. -/
def PreservesCore {σ : Type} (f : SolverState σ → SolverState σ) : Prop :=
  ∀ s, (f s).solved = s.solved ∧ (f s).failed = s.failed ∧
    (f s).iterations = s.iterations ∧ (f s).MAX_ITERATIONS = s.MAX_ITERATIONS ∧
    (f s).setupDone = s.setupDone

/-- No stage of the pipeline declares an `onSolved` completion callback. -/
def HooksNone {ι χ V : Type} (defs : List (PipelineStageDef ι χ V)) : Prop :=
  ∀ sd ∈ defs, sd.onSolved = none

/-- Every child any stage constructs overrides `getOutput()` to return a
non-`null` value in every state. -/
def OutputsTotal {ι χ V : Type} (defs : List (PipelineStageDef ι χ V)) : Prop :=
  ∀ sd ∈ defs, ∀ q cs, ((sd.mkSolver q).output cs).isSome = true

/-- Structural well-formedness of a pipeline state, maintained by stepping
from a fresh pipeline: the stage index never passes the end, `solved` means
the index is at the end, and at the end no child is active. -/
def PipeInv {ι χ V : Type} (defs : List (PipelineStageDef ι χ V))
    (p : SolverState (PipelineInner ι χ V)) : Prop :=
  p.inner.currentPipelineStageIndex ≤ defs.length ∧
  (p.solved = true → p.inner.currentPipelineStageIndex = defs.length) ∧
  (p.inner.currentPipelineStageIndex = defs.length → p.inner.activeSubSolver = none)

/-- Bookkeeping invariant for `pipelineOutputs`: its keys are exactly the
names of the completed stages (in order), and the active child, if any, has
a total (never-`null`) output function. -/
def OutKeysInv {ι χ V : Type} (defs : List (PipelineStageDef ι χ V))
    (p : SolverState (PipelineInner ι χ V)) : Prop :=
  p.inner.pipelineOutputs.map Prod.fst =
    ((defs.take p.inner.currentPipelineStageIndex).map (fun sd => sd.solverName)) ∧
  (∀ c, p.inner.activeSubSolver = some c → ∀ cs, (c.output cs).isSome = true)

/-- A child whose `_step()` sets `failed` (with an error message) without
throwing, like a sub-solver that runs out of iterations. -/
def failNowBehavior (nm msg : String) : SolverBehavior Unit :=
  { name := nm, setupFn := id,
    stepFn := fun s => ({ s with failed := true, error := some msg }, none),
    tryFinalAcceptance := id, computeProgress := none }

/-- A solver whose `_setup()` leaves a mark in `stats`. -/
def setupTouchBehavior : SolverBehavior Unit :=
  { name := "SetupTouch", setupFn := fun s => { s with stats := [("setupRan", 1)] },
    stepFn := fun s => (s, none), tryFinalAcceptance := id, computeProgress := none }

/-- A never-solving solver (over `σ = Nat`) whose `tryFinalAcceptance()`
increments the private counter, so invocations of the hook are countable. -/
def faBumpBehavior : SolverBehavior Nat :=
  { name := "Idle", setupFn := id, stepFn := fun s => (s, none),
    tryFinalAcceptance := fun s => { s with inner := s.inner + 1 },
    computeProgress := none }

/-- Like `faBumpBehavior` but the final-acceptance hook declares victory. -/
def faAcceptBehavior : SolverBehavior Nat :=
  { name := "Accept", setupFn := id, stepFn := fun s => (s, none),
    tryFinalAcceptance := fun s => { s with solved := true, inner := s.inner + 1 },
    computeProgress := none }

/-- A stage whose child fails gracefully (no exception) on its first step. -/
def demoFailStage (stageName childName msg : String) :
    PipelineStageDef Unit Unit Nat :=
  { solverName := stageName,
    mkSolver := fun _ =>
      { behavior := failNowBehavior childName msg,
        state := initSolverState (), output := fun _ => none },
    onSolved := none }

/-- Two-stage pipeline whose first child fails gracefully: stage "B" must
never be instantiated. -/
def demoDefsGrace : List (PipelineStageDef Unit Unit Nat) :=
  [demoFailStage "A" "ChildA" "childfail", demoStage "B" "ChildB" (some 2)]

/-- The graceful-failure demo pipeline after the given clocked steps. -/
def demoPipeGrace (ts : List Int) : SolverState (PipelineInner Unit Unit Nat) :=
  iterateSteps "PipeGrace" demoDefsGrace ts (initPipeline ())

/-!
Lemmas.
-/

theorem runSetup_of_setupDone {σ : Type} (b : SolverBehavior σ) (s : SolverState σ)
    (h : s.setupDone = true) : runSetup b s = s := by
  simp [runSetup, h]

/-- Step on a terminal solver whose setup already ran returns the state
unchanged and throws nothing (the early `return`s in `step()`). -/
theorem solverStep_terminal {σ : Type} (b : SolverBehavior σ) (s : SolverState σ)
    (hsetup : s.setupDone = true) (hterm : s.solved = true ∨ s.failed = true) :
    solverStep b s = (s, none) := by
  rcases hterm with h | h <;>
    simp [solverStep, runSetup_of_setupDone b s hsetup, h]

theorem stepsN_terminal {σ : Type} (b : SolverBehavior σ) (s : SolverState σ)
    (hsetup : s.setupDone = true) (hterm : s.solved = true ∨ s.failed = true) :
    ∀ n, stepsN b n s = s := by
  intro n
  induction n with
  | zero => rfl
  | succ n ih =>
      simp [stepsN, solverStep_terminal b s hsetup hterm, ih]

theorem solveFuel_terminal {σ : Type} (b : SolverBehavior σ) :
    ∀ (n : Nat) (s : SolverState σ), s.solved = true ∨ s.failed = true →
      solveFuel b n s = (s, none) := by
  intro n s h
  cases n with
  | zero => rfl
  | succ n => simp [solveFuel, h]

theorem lookupEntry_setEntry_self {α : Type} (m : List (String × α)) (k : String) (v : α) :
    lookupEntry k (setEntry m k v) = some v := by
  induction m with
  | nil => simp [setEntry, lookupEntry]
  | cons hd tl ih =>
      by_cases h : hd.1 = k
      · simp [setEntry, h, lookupEntry]
      · cases hd with
        | mk k' v' => simp_all [setEntry, lookupEntry, h]

theorem lookupEntry_setEntry_ne {α : Type} (m : List (String × α)) (k k' : String) (v : α)
    (h : k' ≠ k) : lookupEntry k' (setEntry m k v) = lookupEntry k' m := by
  have h2 : ¬ k = k' := fun hk => h hk.symm
  induction m with
  | nil => simp [setEntry, lookupEntry, h2]
  | cons hd tl ih =>
      cases hd with
      | mk a b =>
          by_cases ha : a = k
          · subst ha
            simp [setEntry, lookupEntry, h2]
          · simp only [setEntry, ha, if_false, lookupEntry]
            by_cases hb : a = k'
            · simp [hb]
            · simp [hb, ih]

theorem keys_setEntry_mem {α : Type} (m : List (String × α)) (k : String) (v : α)
    (h : k ∈ m.map Prod.fst) :
    (setEntry m k v).map Prod.fst = m.map Prod.fst := by
  induction m with
  | nil => simp at h
  | cons hd tl ih =>
      cases hd with
      | mk a b =>
          by_cases ha : a = k
          · simp [setEntry, ha]
          · simp only [List.map_cons, List.mem_cons] at h
            rcases h with h | h
            · exact absurd h.symm ha
            · simp [setEntry, ha, ih h]

theorem keys_setEntry_not_mem {α : Type} (m : List (String × α)) (k : String) (v : α)
    (h : ¬ k ∈ m.map Prod.fst) :
    (setEntry m k v).map Prod.fst = m.map Prod.fst ++ [k] := by
  induction m with
  | nil => simp [setEntry]
  | cons hd tl ih =>
      cases hd with
      | mk a b =>
          simp only [List.map_cons, List.mem_cons] at h
          push_neg at h
          have ha : ¬ a = k := fun he => h.1 he.symm
          simp [setEntry, ha, ih h.2]

theorem postStep_fields_of_not_budget {σ : Type} (b : SolverBehavior σ) (q : SolverState σ)
    (h : q.iterations < q.MAX_ITERATIONS) :
    (postStep b q).solved = q.solved ∧ (postStep b q).failed = q.failed ∧
    (postStep b q).iterations = q.iterations ∧
    (postStep b q).MAX_ITERATIONS = q.MAX_ITERATIONS ∧
    (postStep b q).setupDone = q.setupDone ∧ (postStep b q).error = q.error ∧
    (postStep b q).inner = q.inner ∧ (postStep b q).stats = q.stats := by
  have hc : ¬ (q.solved = false ∧ q.MAX_ITERATIONS ≤ q.iterations) := by
    rintro ⟨_, hle⟩; omega
  unfold postStep
  simp only [hc, if_false]
  cases hcp : b.computeProgress with
  | none => simp
  | some f => simp

theorem postStep_fields_of_solved {σ : Type} (b : SolverBehavior σ) (q : SolverState σ)
    (h : q.solved = true) :
    (postStep b q).solved = q.solved ∧ (postStep b q).failed = q.failed ∧
    (postStep b q).iterations = q.iterations ∧
    (postStep b q).MAX_ITERATIONS = q.MAX_ITERATIONS ∧
    (postStep b q).setupDone = q.setupDone ∧ (postStep b q).error = q.error ∧
    (postStep b q).inner = q.inner ∧ (postStep b q).stats = q.stats := by
  have hc : ¬ (q.solved = false ∧ q.MAX_ITERATIONS ≤ q.iterations) := by
    rintro ⟨hs, _⟩; rw [h] at hs; exact absurd hs (by decide)
  unfold postStep
  simp only [hc, if_false]
  cases hcp : b.computeProgress with
  | none => simp
  | some f => simp

theorem postStep_fields_budget_fa_solved {σ : Type} (b : SolverBehavior σ) (q : SolverState σ)
    (h0 : q.solved = false) (hle : q.MAX_ITERATIONS ≤ q.iterations)
    (hfa : (b.tryFinalAcceptance q).solved = true) :
    (postStep b q).solved = true ∧
    (postStep b q).failed = (b.tryFinalAcceptance q).failed ∧
    (postStep b q).iterations = (b.tryFinalAcceptance q).iterations ∧
    (postStep b q).MAX_ITERATIONS = (b.tryFinalAcceptance q).MAX_ITERATIONS ∧
    (postStep b q).setupDone = (b.tryFinalAcceptance q).setupDone ∧
    (postStep b q).error = (b.tryFinalAcceptance q).error ∧
    (postStep b q).inner = (b.tryFinalAcceptance q).inner := by
  have hc : (q.solved = false ∧ q.MAX_ITERATIONS ≤ q.iterations) := ⟨h0, hle⟩
  have hc2 : ¬ ((b.tryFinalAcceptance q).solved = false ∧
      (b.tryFinalAcceptance q).MAX_ITERATIONS ≤ (b.tryFinalAcceptance q).iterations) := by
    rintro ⟨hs, _⟩; rw [hfa] at hs; exact absurd hs (by decide)
  simp only [postStep]
  rw [if_pos hc, if_neg hc2]
  cases hcp : b.computeProgress with
  | none => simp [hfa]
  | some f => simp [hfa]

theorem postStep_fields_budget_fa_unsolved {σ : Type} (b : SolverBehavior σ) (q : SolverState σ)
    (h0 : q.solved = false) (hle : q.MAX_ITERATIONS ≤ q.iterations)
    (hfa : (b.tryFinalAcceptance q).solved = false)
    (hfa2 : (b.tryFinalAcceptance q).MAX_ITERATIONS ≤ (b.tryFinalAcceptance q).iterations) :
    (postStep b q).solved = false ∧ (postStep b q).failed = true ∧
    (postStep b q).error = some (b.name ++ " ran out of iterations") ∧
    (postStep b q).iterations = (b.tryFinalAcceptance q).iterations ∧
    (postStep b q).MAX_ITERATIONS = (b.tryFinalAcceptance q).MAX_ITERATIONS ∧
    (postStep b q).setupDone = (b.tryFinalAcceptance q).setupDone ∧
    (postStep b q).inner = (b.tryFinalAcceptance q).inner := by
  have hc : (q.solved = false ∧ q.MAX_ITERATIONS ≤ q.iterations) := ⟨h0, hle⟩
  have hc2 : ((b.tryFinalAcceptance q).solved = false ∧
      (b.tryFinalAcceptance q).MAX_ITERATIONS ≤ (b.tryFinalAcceptance q).iterations) :=
    ⟨hfa, hfa2⟩
  simp only [postStep]
  rw [if_pos hc, if_pos hc2]
  cases hcp : b.computeProgress with
  | none => simp [hfa]
  | some f => simp [hfa]

theorem runSetup_budget {σ : Type} (b : SolverBehavior σ)
    (hsetup : PreservesBudget b.setupFn) (s : SolverState σ) :
    (runSetup b s).iterations = s.iterations ∧
    (runSetup b s).MAX_ITERATIONS = s.MAX_ITERATIONS ∧
    (runSetup b s).setupDone = true := by
  unfold runSetup
  by_cases h : s.setupDone = true
  · simp [h]
  · simp only [Bool.not_eq_true] at h
    simp [h, (hsetup s).1, (hsetup s).2.1]

theorem runSetup_core {σ : Type} (b : SolverBehavior σ)
    (hsetup : PreservesCore b.setupFn) (s : SolverState σ) :
    (runSetup b s).solved = s.solved ∧ (runSetup b s).failed = s.failed ∧
    (runSetup b s).iterations = s.iterations ∧
    (runSetup b s).MAX_ITERATIONS = s.MAX_ITERATIONS ∧
    (runSetup b s).setupDone = true := by
  unfold runSetup
  by_cases h : s.setupDone = true
  · simp [h]
  · simp only [Bool.not_eq_true] at h
    obtain ⟨h1, h2, h3, h4, _⟩ := hsetup s
    simp [h, h1, h2, h3, h4]

theorem runSetup_cnt {σ : Type} (b : SolverBehavior σ) (cnt : σ → Nat)
    (hcnt : ∀ t, cnt (b.setupFn t).inner = cnt t.inner) (s : SolverState σ) :
    cnt (runSetup b s).inner = cnt s.inner := by
  unfold runSetup
  by_cases h : s.setupDone = true
  · simp [h]
  · simp only [Bool.not_eq_true] at h
    simp [h, hcnt s]

@[simp] theorem bumpIterations_iterations {σ : Type} (t : SolverState σ) :
    (bumpIterations t).iterations = t.iterations + 1 := rfl

@[simp] theorem bumpIterations_MAX {σ : Type} (t : SolverState σ) :
    (bumpIterations t).MAX_ITERATIONS = t.MAX_ITERATIONS := rfl

@[simp] theorem bumpIterations_solved {σ : Type} (t : SolverState σ) :
    (bumpIterations t).solved = t.solved := rfl

@[simp] theorem bumpIterations_failed {σ : Type} (t : SolverState σ) :
    (bumpIterations t).failed = t.failed := rfl

@[simp] theorem bumpIterations_setupDone {σ : Type} (t : SolverState σ) :
    (bumpIterations t).setupDone = t.setupDone := rfl

@[simp] theorem bumpIterations_inner {σ : Type} (t : SolverState σ) :
    (bumpIterations t).inner = t.inner := rfl

/-- Past the terminal-state checks, `step()` runs the incremented-and-step
body on the post-setup state. -/
theorem solverStep_nonterminal {σ : Type} (b : SolverBehavior σ) (s : SolverState σ)
    (h0s : (runSetup b s).solved = false) (h0f : (runSetup b s).failed = false) :
    solverStep b s = stepBody b (runSetup b s) := by
  simp [solverStep, h0s, h0f]

theorem solveFuel_budget_terminates {σ : Type} (b : SolverBehavior σ)
    (hexn : ∀ t, (b.stepFn t).2 = none)
    (hstep : PreservesBudget (fun t => (b.stepFn t).1))
    (hfa : PreservesBudget b.tryFinalAcceptance)
    (hsetup : PreservesBudget b.setupFn) :
    ∀ (n : Nat) (s : SolverState σ),
      s.MAX_ITERATIONS ≤ s.iterations + n →
      (s.solved = true ∨ s.failed = true ∨ 1 ≤ n) →
      (solveFuel b n s).2 = none ∧
      ((solveFuel b n s).1.solved = true ∨ (solveFuel b n s).1.failed = true) ∧
      (solveFuel b n s).1.iterations ≤ s.iterations + n := by
  intro n
  induction n with
  | zero =>
      intro s hle hcase
      have hterm : s.solved = true ∨ s.failed = true := by
        rcases hcase with h | h | h
        · exact Or.inl h
        · exact Or.inr h
        · omega
      rw [solveFuel_terminal b 0 s hterm]
      exact ⟨rfl, hterm, Nat.le_add_right _ _⟩
  | succ n ih =>
      intro s hle _
      by_cases hterm : s.solved = true ∨ s.failed = true
      · rw [solveFuel_terminal b (n + 1) s hterm]
        exact ⟨rfl, hterm, Nat.le_add_right _ _⟩
      push_neg at hterm
      have hs : s.solved = false := by simpa using hterm.1
      have hf : s.failed = false := by simpa using hterm.2
      obtain ⟨hb1, hb2, hb3⟩ := runSetup_budget b hsetup s
      by_cases h0term : (runSetup b s).solved = true ∨ (runSetup b s).failed = true
      · have hstep0 : solverStep b s = (runSetup b s, none) := by
          rcases h0term with h | h <;> simp [solverStep, h]
        have hres : solveFuel b (n + 1) s = solveFuel b n (runSetup b s) := by
          simp [solveFuel, hs, hf, hstep0]
        rw [hres, solveFuel_terminal b n (runSetup b s) h0term]
        refine ⟨rfl, h0term, ?_⟩
        have hgoal : (runSetup b s).iterations ≤ s.iterations + (n + 1) := by omega
        exact hgoal
      push_neg at h0term
      have h0s : (runSetup b s).solved = false := by simpa using h0term.1
      have h0f : (runSetup b s).failed = false := by simpa using h0term.2
      have hstep0 : solverStep b s = stepBody b (runSetup b s) :=
        solverStep_nonterminal b s h0s h0f
      rcases hpair : b.stepFn (bumpIterations (runSetup b s)) with ⟨s2, ex⟩
      have hexnone : ex = none := by
        have h := hexn (bumpIterations (runSetup b s))
        rw [hpair] at h
        exact h
      subst hexnone
      have hbody : stepBody b (runSetup b s) = (postStep b s2, none) := by
        simp [stepBody, hpair]
      have hres : solveFuel b (n + 1) s = solveFuel b n (postStep b s2) := by
        simp [solveFuel, hs, hf, hstep0, hbody]
      have hs2fields := hstep (bumpIterations (runSetup b s))
      simp only [hpair] at hs2fields
      have h2iter : s2.iterations = s.iterations + 1 := by
        have h := hs2fields.1
        simp at h
        omega
      have h2max : s2.MAX_ITERATIONS = s.MAX_ITERATIONS := by
        have h := hs2fields.2.1
        simp at h
        omega
      rw [hres]
      by_cases h2s : s2.solved = true
      · obtain ⟨c1, c2, c3, c4, c5, c6, c7, c8⟩ := postStep_fields_of_solved b s2 h2s
        have hterm2 : (postStep b s2).solved = true ∨ (postStep b s2).failed = true :=
          Or.inl (c1.trans h2s)
        rw [solveFuel_terminal b n _ hterm2]
        refine ⟨rfl, hterm2, ?_⟩
        have hgoal : (postStep b s2).iterations ≤ s.iterations + (n + 1) := by omega
        exact hgoal
      have h2s' : s2.solved = false := by simpa using h2s
      by_cases hbud : s2.MAX_ITERATIONS ≤ s2.iterations
      · by_cases hfas : (b.tryFinalAcceptance s2).solved = true
        · obtain ⟨c1, c2, c3, c4, c5, c6, c7⟩ :=
            postStep_fields_budget_fa_solved b s2 h2s' hbud hfas
          have hterm2 : (postStep b s2).solved = true ∨ (postStep b s2).failed = true :=
            Or.inl c1
          rw [solveFuel_terminal b n _ hterm2]
          refine ⟨rfl, hterm2, ?_⟩
          have hfai := (hfa s2).1
          have hgoal : (postStep b s2).iterations ≤ s.iterations + (n + 1) := by omega
          exact hgoal
        · have hfas' : (b.tryFinalAcceptance s2).solved = false := by simpa using hfas
          have hfa2 : (b.tryFinalAcceptance s2).MAX_ITERATIONS ≤
              (b.tryFinalAcceptance s2).iterations := by
            rw [(hfa s2).1, (hfa s2).2.1]
            exact hbud
          obtain ⟨c1, c2, c3, c4, c5, c6, c7⟩ :=
            postStep_fields_budget_fa_unsolved b s2 h2s' hbud hfas' hfa2
          have hterm2 : (postStep b s2).solved = true ∨ (postStep b s2).failed = true :=
            Or.inr c2
          rw [solveFuel_terminal b n _ hterm2]
          refine ⟨rfl, hterm2, ?_⟩
          have hfai := (hfa s2).1
          have hgoal : (postStep b s2).iterations ≤ s.iterations + (n + 1) := by omega
          exact hgoal
      · have hlt : s2.iterations < s2.MAX_ITERATIONS := by omega
        obtain ⟨c1, c2, c3, c4, c5, c6, c7, c8⟩ := postStep_fields_of_not_budget b s2 hlt
        by_cases h2f : s2.failed = true
        · have hterm2 : (postStep b s2).solved = true ∨ (postStep b s2).failed = true :=
            Or.inr (c2.trans h2f)
          rw [solveFuel_terminal b n _ hterm2]
          refine ⟨rfl, hterm2, ?_⟩
          have hgoal : (postStep b s2).iterations ≤ s.iterations + (n + 1) := by omega
          exact hgoal
        · have h2f' : s2.failed = false := by simpa using h2f
          have hn1 : 1 ≤ n := by omega
          have hih := ih (postStep b s2) (by omega) (Or.inr (Or.inr hn1))
          refine ⟨hih.1, hih.2.1, ?_⟩
          have hih2 := hih.2.2
          omega

theorem postStep_iterations {σ : Type} (b : SolverBehavior σ)
    (hfa : PreservesBudget b.tryFinalAcceptance) (q : SolverState σ) :
    (postStep b q).iterations = q.iterations := by
  simp only [postStep]
  by_cases h1 : (q.solved = false ∧ q.MAX_ITERATIONS ≤ q.iterations)
  · rw [if_pos h1]
    by_cases h2 : ((b.tryFinalAcceptance q).solved = false ∧
        (b.tryFinalAcceptance q).MAX_ITERATIONS ≤ (b.tryFinalAcceptance q).iterations)
    · rw [if_pos h2]
      cases hcp : b.computeProgress with
      | none => simp [(hfa q).1]
      | some f => simp [(hfa q).1]
    · rw [if_neg h2]
      cases hcp : b.computeProgress with
      | none => simp [(hfa q).1]
      | some f => simp [(hfa q).1]
  · rw [if_neg h1, if_neg h1]
    cases hcp : b.computeProgress with
    | none => simp
    | some f => simp

theorem solverStep_increments {σ : Type} (b : SolverBehavior σ)
    (hexn : ∀ t, (b.stepFn t).2 = none)
    (hstep : PreservesBudget (fun t => (b.stepFn t).1))
    (hfa : PreservesBudget b.tryFinalAcceptance)
    (t : SolverState σ) (hsd : t.setupDone = true)
    (hts : t.solved = false) (htf : t.failed = false) :
    (solverStep b t).1.iterations = t.iterations + 1 := by
  have hrs := runSetup_of_setupDone b t hsd
  have hns : solverStep b t = stepBody b t := by
    have := solverStep_nonterminal b t (by rw [hrs]; exact hts) (by rw [hrs]; exact htf)
    rwa [hrs] at this
  rcases hpair : b.stepFn (bumpIterations t) with ⟨s2, ex⟩
  have hexnone : ex = none := by
    have h := hexn (bumpIterations t)
    rw [hpair] at h
    exact h
  subst hexnone
  have hbody : stepBody b t = (postStep b s2, none) := by
    simp [stepBody, hpair]
  rw [hns, hbody]
  have hs2 := hstep (bumpIterations t)
  simp only [hpair] at hs2
  have h2 : s2.iterations = t.iterations + 1 := by
    have h := hs2.1
    simp at h
    omega
  simpa [postStep_iterations b hfa s2] using h2

/-- C4 (confirmed): when the subclass step logic throws during `step()`, the
solver records `error` as "(class name) error: (thrown value)", sets
`failed = true`, and the exception is re-raised to the caller of `step()`
and hence of `solve()` — recorded and propagated, never swallowed. -/
theorem c4_exception_recorded_and_rethrown {σ : Type} (b : SolverBehavior σ)
    (s s2 : SolverState σ) (e : String)
    (hsetup : s.setupDone = true) (hns : s.solved = false) (hnf : s.failed = false)
    (hthrow : b.stepFn (bumpIterations s) = (s2, some e)) :
    solverStep b s =
      ({ s2 with error := some (b.name ++ " error: " ++ e), failed := true }, some e) ∧
    ∀ n, solveFuel b (n + 1) s =
      ({ s2 with error := some (b.name ++ " error: " ++ e), failed := true }, some e) := by
  have hrs := runSetup_of_setupDone b s hsetup
  have hns2 : solverStep b s = stepBody b s := by
    have h := solverStep_nonterminal b s (by rw [hrs]; exact hns) (by rw [hrs]; exact hnf)
    rwa [hrs] at h
  have hbody : stepBody b s =
      ({ s2 with error := some (b.name ++ " error: " ++ e), failed := true }, some e) := by
    simp [stepBody, hthrow]
  refine ⟨hns2.trans hbody, fun n => ?_⟩
  simp [solveFuel, hns, hnf, hns2, hbody]

theorem c4_exception_witness :
    (solverStep (throwBehavior "ChildA" "boom")
        { initSolverState () with setupDone := true }).2 = some "boom" ∧
    (solverStep (throwBehavior "ChildA" "boom")
        { initSolverState () with setupDone := true }).1.failed = true ∧
    (solverStep (throwBehavior "ChildA" "boom")
        { initSolverState () with setupDone := true }).1.error =
      some "ChildA error: boom" := by
  have h := (c4_exception_recorded_and_rethrown (throwBehavior "ChildA" "boom")
      { initSolverState () with setupDone := true }
      (bumpIterations { initSolverState () with setupDone := true })
      "boom" rfl rfl rfl rfl).1
  rw [h]
  exact ⟨rfl, rfl, rfl⟩

/-- C7 (corrected): the claim as stated fails because a terminal solver
whose setup never ran still executes the setup hook on `step()` (see the
counterexample); once setup has completed, `step()` on a solver with
`solved` or `failed` set is an exact no-op: the state (including
`iterations` and `stats`) is unchanged and no exception is raised, under
any number of further `step()` calls, so the flags never revert and remain
mutually exclusive if they were. -/
theorem c7_terminal_step_noop {σ : Type} (b : SolverBehavior σ) (s : SolverState σ)
    (hsetup : s.setupDone = true) (hterm : s.solved = true ∨ s.failed = true) :
    solverStep b s = (s, none) ∧
    (∀ n, stepsN b n s = s) ∧
    (∀ n, (stepsN b n s).iterations = s.iterations ∧ (stepsN b n s).stats = s.stats ∧
      (stepsN b n s).solved = s.solved ∧ (stepsN b n s).failed = s.failed) ∧
    (¬ (s.solved = true ∧ s.failed = true) →
      ∀ n, ¬ ((stepsN b n s).solved = true ∧ (stepsN b n s).failed = true)) := by
  have h1 := solverStep_terminal b s hsetup hterm
  have h2 := stepsN_terminal b s hsetup hterm
  refine ⟨h1, h2, fun n => ?_, fun hmx n => ?_⟩
  · rw [h2 n]
    exact ⟨rfl, rfl, rfl, rfl⟩
  · rw [h2 n]
    exact hmx

/-- C7 fails as stated: a solver with `solved = true` whose setup has not
yet run has its `stats` changed by a subsequent `step()` call (the setup
hook runs before the terminal-state check). -/
theorem c7_counterexample :
    ({ initSolverState () with solved := true } : SolverState Unit).solved = true ∧
    (solverStep setupTouchBehavior
        { initSolverState () with solved := true }).1.stats ≠
      ({ initSolverState () with solved := true } : SolverState Unit).stats := by
  refine ⟨rfl, ?_⟩
  decide

theorem c7_terminal_step_noop_witness :
    solverStep (idleBehavior "Idle")
        { initSolverState () with solved := true, setupDone := true } =
      ({ initSolverState () with solved := true, setupDone := true }, none) ∧
    stepsN (idleBehavior "Idle") 3
        { initSolverState () with solved := true, setupDone := true } =
      { initSolverState () with solved := true, setupDone := true } := by
  have h := c7_terminal_step_noop (idleBehavior "Idle")
      { initSolverState () with solved := true, setupDone := true } rfl (Or.inl rfl)
  exact ⟨h.1, h.2.1 3⟩

/-- C10 (confirmed): a `step()` call on a terminal solver whose setup never
ran still invokes the one-time setup hook — the result state is the
subclass setup applied and the setup-done flag set — before the
terminal-state check returns; hence the terminal no-op guarantee is
unconditional only for solvers whose setup has completed. -/
theorem c10_step_runs_setup_even_when_terminal {σ : Type} (b : SolverBehavior σ)
    (s : SolverState σ) (hnot : s.setupDone = false)
    (hterm : s.solved = true ∨ s.failed = true)
    (hpres : (b.setupFn s).solved = s.solved ∧ (b.setupFn s).failed = s.failed) :
    solverStep b s = ({ b.setupFn s with setupDone := true }, none) := by
  have h0 : runSetup b s = { b.setupFn s with setupDone := true } := by
    simp [runSetup, hnot]
  by_cases hsv : s.solved = true
  · simp [solverStep, h0, hpres.1, hsv]
  · have hsv' : s.solved = false := by simpa using hsv
    have hfl : s.failed = true := by
      rcases hterm with h | h
      · exact absurd h hsv
      · exact h
    simp [solverStep, h0, hpres.1, hpres.2, hsv', hfl]

theorem c10_step_runs_setup_witness :
    (solverStep setupTouchBehavior { initSolverState () with solved := true }).1.setupDone
      = true ∧
    (solverStep setupTouchBehavior { initSolverState () with solved := true }).1.stats =
      [("setupRan", 1)] ∧
    (solverStep setupTouchBehavior { initSolverState () with solved := true }).2 = none := by
  have h := c10_step_runs_setup_even_when_terminal setupTouchBehavior
      { initSolverState () with solved := true } rfl (Or.inl rfl) ⟨rfl, rfl⟩
  rw [h]
  exact ⟨rfl, rfl, rfl⟩

/-- C9 (confirmed): a pipeline with an empty stage-definition list reports
`getStageProgress() = 1` in every state (even before any `step()`), and its
very first `step()` call sets `solved = true` with `iterations = 1`. -/
theorem c9_empty_pipeline {ι χ V : Type} :
    (∀ p : SolverState (PipelineInner ι χ V),
      getStageProgress ([] : List (PipelineStageDef ι χ V)) p = 1) ∧
    (∀ (nm : String) (t : Int) (input : ι),
      (pipeStep nm ([] : List (PipelineStageDef ι χ V)) t (initPipeline input)).1.solved
        = true ∧
      (pipeStep nm ([] : List (PipelineStageDef ι χ V)) t (initPipeline input)).1.iterations
        = 1) := by
  constructor
  · intro p
    simp [getStageProgress]
  · intro nm t input
    exact ⟨rfl, rfl⟩

/-- C8 (confirmed): for a fresh solver with `maxIterations ≥ 1` whose step
logic never throws (and whose hooks leave the driver's budget fields
alone), `solve()` terminates within `maxIterations` loop iterations in a
`solved` or `failed` state, with no exception; each non-terminal `step()`
increments `iterations` by exactly one, reaching the bound forces `failed`
when not solved, and the elapsed wall-clock time is stored in
`timeToSolve`. -/
theorem c8_solve_terminates_within_budget {σ : Type} (b : SolverBehavior σ)
    (hexn : ∀ t, (b.stepFn t).2 = none)
    (hstep : PreservesBudget (fun t => (b.stepFn t).1))
    (hfa : PreservesBudget b.tryFinalAcceptance)
    (hsetup : PreservesBudget b.setupFn)
    (s : SolverState σ) (hs : s.solved = false) (hf : s.failed = false)
    (hiter : s.iterations = 0) (hmax : 1 ≤ s.MAX_ITERATIONS) (t0 t1 : Int) :
    (solveTimed b s.MAX_ITERATIONS t0 t1 s).2 = none ∧
    ((solveTimed b s.MAX_ITERATIONS t0 t1 s).1.solved = true ∨
      (solveTimed b s.MAX_ITERATIONS t0 t1 s).1.failed = true) ∧
    (solveTimed b s.MAX_ITERATIONS t0 t1 s).1.iterations ≤ s.MAX_ITERATIONS ∧
    (solveTimed b s.MAX_ITERATIONS t0 t1 s).1.timeToSolve = some (t1 - t0) ∧
    ((solveTimed b s.MAX_ITERATIONS t0 t1 s).1.solved = false →
      (solveTimed b s.MAX_ITERATIONS t0 t1 s).1.failed = true) ∧
    (∀ t : SolverState σ, t.setupDone = true → t.solved = false → t.failed = false →
      (solverStep b t).1.iterations = t.iterations + 1) := by
  have hmain := solveFuel_budget_terminates b hexn hstep hfa hsetup s.MAX_ITERATIONS s
    (by omega) (Or.inr (Or.inr hmax))
  rcases hsf : solveFuel b s.MAX_ITERATIONS s with ⟨s', ex⟩
  rw [hsf] at hmain
  have hexnone : ex = none := hmain.1
  subst hexnone
  have hst : solveTimed b s.MAX_ITERATIONS t0 t1 s =
      ({ s' with timeToSolve := some (t1 - t0) }, none) := by
    simp [solveTimed, hsf]
  rw [hst]
  have hterm : s'.solved = true ∨ s'.failed = true := by simpa using hmain.2.1
  refine ⟨rfl, by simpa using hterm, ?_, rfl, ?_, ?_⟩
  · have h := hmain.2.2
    simp at h
    simp
    omega
  · intro hns
    simp at hns
    rcases hterm with h | h
    · rw [h] at hns
      exact absurd hns (by decide)
    · simpa using h
  · intro t hsd hts htf
    exact solverStep_increments b hexn hstep hfa t hsd hts htf

theorem c8_solve_terminates_witness :
    (solveTimed (idleBehavior "Idle") 3 100 250
        { initSolverState () with MAX_ITERATIONS := 3 }).2 = none ∧
    (solveTimed (idleBehavior "Idle") 3 100 250
        { initSolverState () with MAX_ITERATIONS := 3 }).1.failed = true ∧
    (solveTimed (idleBehavior "Idle") 3 100 250
        { initSolverState () with MAX_ITERATIONS := 3 }).1.iterations ≤ 3 ∧
    (solveTimed (idleBehavior "Idle") 3 100 250
        { initSolverState () with MAX_ITERATIONS := 3 }).1.timeToSolve = some 150 := by
  have h := c8_solve_terminates_within_budget (idleBehavior "Idle")
      (fun t => rfl) (fun t => ⟨rfl, rfl, rfl⟩) (fun t => ⟨rfl, rfl, rfl⟩)
      (fun t => ⟨rfl, rfl, rfl⟩)
      { initSolverState () with MAX_ITERATIONS := 3 } rfl rfl rfl (by decide) 100 250
  refine ⟨h.1, ?_, h.2.2.1, by simpa using h.2.2.2.1⟩
  decide

theorem solveFuel_never_solved {σ : Type} (b : SolverBehavior σ) (cnt : σ → Nat)
    (hexn : ∀ t, (b.stepFn t).2 = none)
    (hstep : PreservesCore (fun t => (b.stepFn t).1))
    (hsetup : PreservesCore b.setupFn)
    (hcnt_step : ∀ t, cnt ((b.stepFn t).1).inner = cnt t.inner)
    (hcnt_setup : ∀ t, cnt (b.setupFn t).inner = cnt t.inner) :
    ∀ (n : Nat) (s : SolverState σ), s.solved = false → s.failed = false →
      s.iterations + n = s.MAX_ITERATIONS → 1 ≤ n →
      ((PreservesCore b.tryFinalAcceptance →
        (∀ t, cnt (b.tryFinalAcceptance t).inner = cnt t.inner + 1) →
        (solveFuel b n s).2 = none ∧ (solveFuel b n s).1.failed = true ∧
        (solveFuel b n s).1.solved = false ∧
        (solveFuel b n s).1.iterations = s.MAX_ITERATIONS ∧
        (solveFuel b n s).1.error = some (b.name ++ " ran out of iterations") ∧
        cnt (solveFuel b n s).1.inner = cnt s.inner + 1) ∧
      ((∀ t, (b.tryFinalAcceptance t).solved = true ∧
          (b.tryFinalAcceptance t).failed = t.failed) →
        (solveFuel b n s).2 = none ∧ (solveFuel b n s).1.solved = true ∧
        (solveFuel b n s).1.failed = false)) := by
  intro n
  induction n with
  | zero => intro s _ _ _ h1; omega
  | succ n ih =>
      intro s hs hf hcount _
      obtain ⟨r1, r2, r3, r4, r5⟩ := runSetup_core b hsetup s
      have h0s : (runSetup b s).solved = false := r1.trans hs
      have h0f : (runSetup b s).failed = false := r2.trans hf
      have hcnt0 : cnt (runSetup b s).inner = cnt s.inner := runSetup_cnt b cnt hcnt_setup s
      have hstep0 : solverStep b s = stepBody b (runSetup b s) :=
        solverStep_nonterminal b s h0s h0f
      rcases hpair : b.stepFn (bumpIterations (runSetup b s)) with ⟨s2, ex⟩
      have hexnone : ex = none := by
        have h := hexn (bumpIterations (runSetup b s))
        rw [hpair] at h
        exact h
      subst hexnone
      have hs2f := hstep (bumpIterations (runSetup b s))
      simp only [hpair] at hs2f
      have h2solved : s2.solved = false := by
        have h := hs2f.1
        simp [h0s] at h
        exact h
      have h2failed : s2.failed = false := by
        have h := hs2f.2.1
        simp [h0f] at h
        exact h
      have h2iter : s2.iterations = s.iterations + 1 := by
        have h := hs2f.2.2.1
        simp [r3] at h
        omega
      have h2max : s2.MAX_ITERATIONS = s.MAX_ITERATIONS := by
        have h := hs2f.2.2.2.1
        simp [r4] at h
        omega
      have h2cnt : cnt s2.inner = cnt s.inner := by
        have h := hcnt_step (bumpIterations (runSetup b s))
        rw [hpair] at h
        simpa [hcnt0] using h
      have hbody : stepBody b (runSetup b s) = (postStep b s2, none) := by
        simp [stepBody, hpair]
      have hres : solveFuel b (n + 1) s = solveFuel b n (postStep b s2) := by
        simp [solveFuel, hs, hf, hstep0, hbody]
      rw [hres]
      by_cases hbase : n = 0
      · subst hbase
        have hbud : s2.MAX_ITERATIONS ≤ s2.iterations := by omega
        constructor
        · intro hfa hbump
          have hfas' : (b.tryFinalAcceptance s2).solved = false :=
            ((hfa s2).1).trans h2solved
          have hfa2 : (b.tryFinalAcceptance s2).MAX_ITERATIONS ≤
              (b.tryFinalAcceptance s2).iterations := by
            rw [(hfa s2).2.2.1, (hfa s2).2.2.2.1]
            exact hbud
          obtain ⟨c1, c2, c3, c4, c5, c6, c7⟩ :=
            postStep_fields_budget_fa_unsolved b s2 h2solved hbud hfas' hfa2
          refine ⟨rfl, by simpa using c2, by simpa using c1, ?_, by simpa using c3, ?_⟩
          · show (postStep b s2).iterations = s.MAX_ITERATIONS
            have hfai := (hfa s2).2.2.1
            rw [c4, hfai]
            omega
          · show cnt (postStep b s2).inner = cnt s.inner + 1
            have h := hbump s2
            rw [c7, h]
            omega
        · intro hacc
          have hfas : (b.tryFinalAcceptance s2).solved = true := (hacc s2).1
          obtain ⟨c1, c2, c3, c4, c5, c6, c7⟩ :=
            postStep_fields_budget_fa_solved b s2 h2solved hbud hfas
          have hfl : (postStep b s2).failed = false := by
            rw [c2, (hacc s2).2, h2failed]
          refine ⟨rfl, by simpa using c1, by simpa using hfl⟩
      · have hn1 : 1 ≤ n := by omega
        have hlt : s2.iterations < s2.MAX_ITERATIONS := by omega
        obtain ⟨c1, c2, c3, c4, c5, c6, c7, c8⟩ := postStep_fields_of_not_budget b s2 hlt
        have hp_solved : (postStep b s2).solved = false := c1.trans h2solved
        have hp_failed : (postStep b s2).failed = false := c2.trans h2failed
        have hp_count : (postStep b s2).iterations + n = (postStep b s2).MAX_ITERATIONS := by
          rw [c3, c4]
          omega
        have hih := ih (postStep b s2) hp_solved hp_failed hp_count hn1
        constructor
        · intro hfa hbump
          obtain ⟨d1, d2, d3, d4, d5, d6⟩ := hih.1 hfa hbump
          refine ⟨d1, d2, d3, ?_, d5, ?_⟩
          · rw [d4, c4, h2max]
          · rw [d6, c7, h2cnt]
        · intro hacc
          exact hih.2 hacc

/-- C5 (corrected): as stated the claim fails for a solver with
`maxIterations = 0` (see the counterexample: `solve()` ends with
`iterations = 1 ≠ 0 = maxIterations`).  With `maxIterations ≥ 1`, a fresh
solver whose step logic never sets `solved` or `failed` and never throws
(and whose hooks leave the driver's bookkeeping fields alone) ends
`solve()` with `failed = true`, `iterations = maxIterations`, the
out-of-iterations error message, and no exception; the final-acceptance
hook runs exactly once (witnessed by a ghost counter on the private state)
before `failed` is set, and if the hook sets `solved` the solver ends
`solved` instead of `failed`. -/
theorem c5_never_solving_runs_out_of_iterations {σ : Type} (b : SolverBehavior σ)
    (cnt : σ → Nat)
    (hexn : ∀ t, (b.stepFn t).2 = none)
    (hstep : PreservesCore (fun t => (b.stepFn t).1))
    (hsetup : PreservesCore b.setupFn)
    (hcnt_step : ∀ t, cnt ((b.stepFn t).1).inner = cnt t.inner)
    (hcnt_setup : ∀ t, cnt (b.setupFn t).inner = cnt t.inner)
    (s : SolverState σ) (hs : s.solved = false) (hf : s.failed = false)
    (hiter : s.iterations = 0) (hmax : 1 ≤ s.MAX_ITERATIONS) :
    (PreservesCore b.tryFinalAcceptance →
      (∀ t, cnt (b.tryFinalAcceptance t).inner = cnt t.inner + 1) →
      (solveFuel b s.MAX_ITERATIONS s).2 = none ∧
      (solveFuel b s.MAX_ITERATIONS s).1.failed = true ∧
      (solveFuel b s.MAX_ITERATIONS s).1.solved = false ∧
      (solveFuel b s.MAX_ITERATIONS s).1.iterations = s.MAX_ITERATIONS ∧
      (solveFuel b s.MAX_ITERATIONS s).1.error =
        some (b.name ++ " ran out of iterations") ∧
      cnt (solveFuel b s.MAX_ITERATIONS s).1.inner = cnt s.inner + 1) ∧
    ((∀ t, (b.tryFinalAcceptance t).solved = true ∧
        (b.tryFinalAcceptance t).failed = t.failed) →
      (solveFuel b s.MAX_ITERATIONS s).2 = none ∧
      (solveFuel b s.MAX_ITERATIONS s).1.solved = true ∧
      (solveFuel b s.MAX_ITERATIONS s).1.failed = false) :=
  solveFuel_never_solved b cnt hexn hstep hsetup hcnt_step hcnt_setup
    s.MAX_ITERATIONS s hs hf (by omega) hmax

/-- C5 fails as stated at `maxIterations = 0`: the never-solving solver
ends failed with `iterations = 1`, not `iterations = maxIterations = 0`. -/
theorem c5_counterexample :
    (solveFuel (idleBehavior "Idle") 5
        { initSolverState () with MAX_ITERATIONS := 0 }).1.failed = true ∧
    (solveFuel (idleBehavior "Idle") 5
        { initSolverState () with MAX_ITERATIONS := 0 }).1.iterations = 1 ∧
    (solveFuel (idleBehavior "Idle") 5
        { initSolverState () with MAX_ITERATIONS := 0 }).1.MAX_ITERATIONS = 0 := by
  refine ⟨?_, ?_, ?_⟩ <;> decide

theorem c5_never_solving_witness :
    (solveFuel faBumpBehavior 2 { initSolverState (0 : Nat) with MAX_ITERATIONS := 2 }).1.failed
      = true ∧
    (solveFuel faBumpBehavior 2
        { initSolverState (0 : Nat) with MAX_ITERATIONS := 2 }).1.iterations = 2 ∧
    (solveFuel faBumpBehavior 2
        { initSolverState (0 : Nat) with MAX_ITERATIONS := 2 }).1.error =
      some "Idle ran out of iterations" ∧
    (solveFuel faBumpBehavior 2
        { initSolverState (0 : Nat) with MAX_ITERATIONS := 2 }).1.inner = 1 ∧
    (solveFuel faAcceptBehavior 2
        { initSolverState (0 : Nat) with MAX_ITERATIONS := 2 }).1.solved = true := by
  have ha := (c5_never_solving_runs_out_of_iterations faBumpBehavior (fun k => k)
      (fun t => rfl) (fun t => ⟨rfl, rfl, rfl, rfl, rfl⟩)
      (fun t => ⟨rfl, rfl, rfl, rfl, rfl⟩) (fun t => rfl) (fun t => rfl)
      { initSolverState (0 : Nat) with MAX_ITERATIONS := 2 } rfl rfl rfl (by decide)).1
      (fun t => ⟨rfl, rfl, rfl, rfl, rfl⟩) (fun t => rfl)
  have hb := (c5_never_solving_runs_out_of_iterations faAcceptBehavior (fun k => k)
      (fun t => rfl) (fun t => ⟨rfl, rfl, rfl, rfl, rfl⟩)
      (fun t => ⟨rfl, rfl, rfl, rfl, rfl⟩) (fun t => rfl) (fun t => rfl)
      { initSolverState (0 : Nat) with MAX_ITERATIONS := 2 } rfl rfl rfl (by decide)).2
      (fun t => ⟨rfl, rfl⟩)
  exact ⟨ha.2.1, ha.2.2.2.1, ha.2.2.2.2.1, ha.2.2.2.2.2, hb.2.1⟩

theorem mem_of_getElemOpt {α : Type} {l : List α} {n : Nat} {a : α}
    (h : l[n]? = some a) : a ∈ l := by
  obtain ⟨hlt, heq⟩ := List.getElem?_eq_some.mp h
  exact heq ▸ List.getElem_mem hlt

theorem lt_length_of_getElemOpt {α : Type} {l : List α} {n : Nat} {a : α}
    (h : l[n]? = some a) : n < l.length :=
  (List.getElem?_eq_some.mp h).1

theorem getElem_not_mem_take {α : Type} (l : List α) (h : l.Nodup) (i : Nat)
    (hi : i < l.length) : l[i] ∉ l.take i := by
  intro hmem
  have hsplit := List.take_append_drop i l
  rw [← hsplit] at h
  have hdisj := (List.nodup_append.mp h).2.2
  have hdrop : l[i] ∈ l.drop i := by
    have h0 : 0 < (l.drop i).length := by
      rw [List.length_drop]
      omega
    have heq : (l.drop i)[0] = l[i] := by
      rw [List.getElem_drop l]
      simp
    rw [← heq]
    exact List.getElem_mem h0
  exact hdisj hmem hdrop

/-- The pipeline's `_setup` is not overridden, so `setup()` only sets the
setup-done flag. -/
theorem pipeRunSetup {ι χ V : Type} (nm : String) (defs : List (PipelineStageDef ι χ V))
    (t : Int) (p : SolverState (PipelineInner ι χ V)) :
    runSetup (pipelineBehavior nm defs t) p = { p with setupDone := true } := by
  by_cases h : p.setupDone = true
  · rw [runSetup_of_setupDone _ _ h]
    cases p
    simp only [] at h
    rw [h]
  · have h' : p.setupDone = false := by simpa using h
    simp [runSetup, h', pipelineBehavior]

theorem pipeStep_nonterminal {ι χ V : Type} (nm : String)
    (defs : List (PipelineStageDef ι χ V)) (t : Int)
    (p : SolverState (PipelineInner ι χ V))
    (hns : p.solved = false) (hnf : p.failed = false) :
    pipeStep nm defs t p =
      stepBody (pipelineBehavior nm defs t) { p with setupDone := true } := by
  unfold pipeStep
  rw [solverStep_nonterminal, pipeRunSetup]
  · rw [pipeRunSetup]
    simpa using hns
  · rw [pipeRunSetup]
    simpa using hnf

theorem pipeStep_terminal_shape {ι χ V : Type} (nm : String)
    (defs : List (PipelineStageDef ι χ V)) (t : Int)
    (p : SolverState (PipelineInner ι χ V))
    (hterm : p.solved = true ∨ p.failed = true) :
    pipeStep nm defs t p = ({ p with setupDone := true }, none) := by
  have hrs := pipeRunSetup nm defs t p
  rcases hterm with h | h <;>
    simp [pipeStep, solverStep, hrs, h]

/-- The pipeline's `postStep`: `tryFinalAcceptance` is not overridden and
`computeProgress` only writes `progress`, so the pipeline-specific state,
flags (absent an out-of-iterations overflow it can only set `failed`),
iteration counter and setup flag pass through. -/
theorem pipePostStep_fields {ι χ V : Type} (nm : String)
    (defs : List (PipelineStageDef ι χ V)) (t : Int)
    (q : SolverState (PipelineInner ι χ V)) :
    (postStep (pipelineBehavior nm defs t) q).inner = q.inner ∧
    (postStep (pipelineBehavior nm defs t) q).solved = q.solved ∧
    (postStep (pipelineBehavior nm defs t) q).iterations = q.iterations ∧
    (postStep (pipelineBehavior nm defs t) q).setupDone = q.setupDone ∧
    (postStep (pipelineBehavior nm defs t) q).MAX_ITERATIONS = q.MAX_ITERATIONS := by
  simp only [postStep, pipelineBehavior, id_eq, ite_self]
  by_cases h : (q.solved = false ∧ q.MAX_ITERATIONS ≤ q.iterations)
  · rw [if_pos h]
    simp [h.1]
  · rw [if_neg h]
    simp

/-- When the iteration budget is not hit, the pipeline's `postStep` only
recomputes `progress`. -/
theorem pipePostStep_nobudget {ι χ V : Type} (nm : String)
    (defs : List (PipelineStageDef ι χ V)) (t : Int)
    (q : SolverState (PipelineInner ι χ V)) (h : q.iterations < q.MAX_ITERATIONS) :
    postStep (pipelineBehavior nm defs t) q =
      { q with progress := getStageProgress defs q } := by
  have hc : ¬ (q.solved = false ∧ q.MAX_ITERATIONS ≤ q.iterations) := by
    rintro ⟨_, hle⟩; omega
  simp only [postStep, pipelineBehavior, id_eq, ite_self]
  rw [if_neg hc]

theorem pipelineStepCore_pipeInv {ι χ V : Type} (defs : List (PipelineStageDef ι χ V))
    (t : Int) (q : SolverState (PipelineInner ι χ V))
    (hqs : q.solved = false)
    (hq1 : q.inner.currentPipelineStageIndex ≤ defs.length)
    (hq3 : q.inner.currentPipelineStageIndex = defs.length →
      q.inner.activeSubSolver = none)
    (hhook : HooksNone defs) :
    (pipelineStepCore defs t q).1.inner.currentPipelineStageIndex ≤ defs.length ∧
    ((pipelineStepCore defs t q).1.solved = true →
      (pipelineStepCore defs t q).1.inner.currentPipelineStageIndex = defs.length) ∧
    ((pipelineStepCore defs t q).1.inner.currentPipelineStageIndex = defs.length →
      (pipelineStepCore defs t q).1.inner.activeSubSolver = none) := by
  rcases hsd : defs[q.inner.currentPipelineStageIndex]? with _ | sd
  · have hlen : defs.length ≤ q.inner.currentPipelineStageIndex := by
      by_contra hlt
      push_neg at hlt
      rw [List.getElem?_eq_getElem hlt] at hsd
      cases hsd
    have hidx : q.inner.currentPipelineStageIndex = defs.length :=
      Nat.le_antisymm hq1 hlen
    simp only [pipelineStepCore, hsd]
    exact ⟨hq1, fun _ => hidx, fun h => hq3 h⟩
  · have hlt : q.inner.currentPipelineStageIndex < defs.length := lt_length_of_getElemOpt hsd
    have hmem : sd ∈ defs := mem_of_getElemOpt hsd
    rcases hact : q.inner.activeSubSolver with _ | child
    · simp [pipelineStepCore, hsd, hact, hqs]
      omega
    · rcases hcr : solverStep child.behavior child.state with ⟨cs, cex⟩
      rcases cex with _ | e
      · by_cases hcs : cs.solved = true
        · have hOS : sd.onSolved = none := hhook sd hmem
          simp [pipelineStepCore, hsd, hact, hcr, hcs, hOS, hqs]
          omega
        · have hcs' : cs.solved = false := by simpa using hcs
          by_cases hcf : cs.failed = true
          · simp [pipelineStepCore, hsd, hact, hcr, hcs', hcf, hqs]
            omega
          · have hcf' : cs.failed = false := by simpa using hcf
            simp [pipelineStepCore, hsd, hact, hcr, hcs', hcf', hqs]
            omega
      · simp [pipelineStepCore, hsd, hact, hcr, hqs]
        omega

theorem pipeStep_pipeInv {ι χ V : Type} (nm : String) (defs : List (PipelineStageDef ι χ V))
    (t : Int) (p : SolverState (PipelineInner ι χ V)) (hhook : HooksNone defs)
    (hp : PipeInv defs p) : PipeInv defs (pipeStep nm defs t p).1 := by
  obtain ⟨h1, h2, h3⟩ := hp
  by_cases hterm : p.solved = true ∨ p.failed = true
  · rw [pipeStep_terminal_shape nm defs t p hterm]
    exact ⟨h1, fun h => h2 (by simpa using h), fun h => h3 (by simpa using h)⟩
  · push_neg at hterm
    have hns : p.solved = false := by simpa using hterm.1
    have hnf : p.failed = false := by simpa using hterm.2
    rw [pipeStep_nonterminal nm defs t p hns hnf]
    have hbs : (bumpIterations ({ p with setupDone := true } :
        SolverState (PipelineInner ι χ V))).solved = false := by simpa using hns
    have hb1 : (bumpIterations ({ p with setupDone := true } :
        SolverState (PipelineInner ι χ V))).inner = p.inner := rfl
    rcases hcore : pipelineStepCore defs t
        (bumpIterations ({ p with setupDone := true } :
          SolverState (PipelineInner ι χ V))) with ⟨r, rex⟩
    have hcoreInv := pipelineStepCore_pipeInv defs t
      (bumpIterations ({ p with setupDone := true } :
        SolverState (PipelineInner ι χ V)))
      hbs (by rw [hb1]; exact h1) (by rw [hb1]; exact h3) hhook
    rw [hcore] at hcoreInv
    simp only [] at hcoreInv
    rcases rex with _ | e
    · have hsb : stepBody (pipelineBehavior nm defs t)
          ({ p with setupDone := true } : SolverState (PipelineInner ι χ V)) =
          (postStep (pipelineBehavior nm defs t) r, none) := by
        simp [stepBody, pipelineBehavior, hcore]
      rw [hsb]
      obtain ⟨f1, f2, f3, f4, f5⟩ := pipePostStep_fields nm defs t r
      exact ⟨by rw [f1]; exact hcoreInv.1,
        fun h => by rw [f1]; exact hcoreInv.2.1 (f2 ▸ h),
        fun h => by rw [f1]; exact hcoreInv.2.2 (f1 ▸ h)⟩
    · have hsb : stepBody (pipelineBehavior nm defs t)
          ({ p with setupDone := true } : SolverState (PipelineInner ι χ V)) =
          ({ r with error := some (nm ++ " error: " ++ e), failed := true }, some e) := by
        simp [stepBody, pipelineBehavior, hcore]
      rw [hsb]
      exact ⟨hcoreInv.1, fun h => hcoreInv.2.1 (by simpa using h),
        fun h => hcoreInv.2.2 (by simpa using h)⟩

theorem iterateSteps_pipeInv {ι χ V : Type} (nm : String)
    (defs : List (PipelineStageDef ι χ V)) (hhook : HooksNone defs) :
    ∀ (ts : List Int) (p : SolverState (PipelineInner ι χ V)),
      PipeInv defs p → PipeInv defs (iterateSteps nm defs ts p) := by
  intro ts
  induction ts with
  | nil => intro p hp; exact hp
  | cons t ts ih =>
      intro p hp
      exact ih _ (pipeStep_pipeInv nm defs t p hhook hp)

theorem initPipeline_pipeInv {ι χ V : Type} (defs : List (PipelineStageDef ι χ V))
    (input : ι) : PipeInv defs (initPipeline (ι := ι) (χ := χ) (V := V) input) :=
  ⟨Nat.zero_le _, fun h => Bool.noConfusion h, fun _ => rfl⟩

theorem names_getElem_not_mem_take {ι χ V : Type} (defs : List (PipelineStageDef ι χ V))
    (hn : (defs.map (fun sd => sd.solverName)).Nodup) (i : Nat) (hi : i < defs.length)
    (sd : PipelineStageDef ι χ V) (hsd : defs[i]? = some sd) :
    sd.solverName ∉ ((defs.take i).map (fun sd => sd.solverName)) := by
  have hi2 : i < (defs.map (fun sd => sd.solverName)).length := by simpa using hi
  have hname : (defs.map (fun sd => sd.solverName))[i] = sd.solverName := by
    rw [List.getElem_map]
    have := List.getElem?_eq_getElem hi
    rw [hsd] at this
    have heq : defs[i] = sd := by
      injection this.symm
    rw [heq]
  have hnot := getElem_not_mem_take (defs.map (fun sd => sd.solverName)) hn i hi2
  rw [hname] at hnot
  rw [List.map_take]
  exact hnot

theorem pipelineStepCore_outKeys {ι χ V : Type} (defs : List (PipelineStageDef ι χ V))
    (t : Int) (q : SolverState (PipelineInner ι χ V))
    (hn : (defs.map (fun sd => sd.solverName)).Nodup)
    (hout : OutputsTotal defs) (hhook : HooksNone defs)
    (hkeys : q.inner.pipelineOutputs.map Prod.fst =
      (defs.take q.inner.currentPipelineStageIndex).map (fun sd => sd.solverName))
    (hact : ∀ c, q.inner.activeSubSolver = some c → ∀ cs, (c.output cs).isSome = true) :
    (pipelineStepCore defs t q).1.inner.pipelineOutputs.map Prod.fst =
      (defs.take (pipelineStepCore defs t q).1.inner.currentPipelineStageIndex).map
        (fun sd => sd.solverName) ∧
    (∀ c, (pipelineStepCore defs t q).1.inner.activeSubSolver = some c →
      ∀ cs, (c.output cs).isSome = true) := by
  rcases hsd : defs[q.inner.currentPipelineStageIndex]? with _ | sd
  · simp only [pipelineStepCore, hsd]
    exact ⟨hkeys, hact⟩
  · have hlt : q.inner.currentPipelineStageIndex < defs.length := lt_length_of_getElemOpt hsd
    have hmem : sd ∈ defs := mem_of_getElemOpt hsd
    rcases hact2 : q.inner.activeSubSolver with _ | child
    · constructor
      · simp [pipelineStepCore, hsd, hact2, hkeys]
      · intro c hc cs
        simp [pipelineStepCore, hsd, hact2] at hc
        rw [← hc]
        exact hout sd hmem q cs
    · have hchild := hact child hact2
      rcases hcr : solverStep child.behavior child.state with ⟨cs, cex⟩
      rcases cex with _ | e
      · by_cases hcs : cs.solved = true
        · have hOS : sd.onSolved = none := hhook sd hmem
          rcases hoc : child.output cs with _ | v
          · have h := hchild cs
            rw [hoc] at h
            simp at h
          · have hnotmem : sd.solverName ∉ q.inner.pipelineOutputs.map Prod.fst := by
              rw [hkeys]
              exact names_getElem_not_mem_take defs hn _ hlt sd hsd
            have hkeys2 := keys_setEntry_not_mem q.inner.pipelineOutputs
              sd.solverName v hnotmem
            constructor
            · simp only [pipelineStepCore, hsd, hact2, hcr, hcs, if_true, hOS]
              simp only [hoc]
              simp only [hkeys2, hkeys]
              rw [List.map_take, List.map_take, List.take_succ]
              have heq : (defs.map (fun sd => sd.solverName))[q.inner.currentPipelineStageIndex]?
                  = some sd.solverName := by
                rw [List.getElem?_map, hsd]
                rfl
              rw [heq]
              rfl
            · intro c hc cs2
              simp [pipelineStepCore, hsd, hact2, hcr, hcs, hOS, hoc] at hc
        · have hcs' : cs.solved = false := by simpa using hcs
          by_cases hcf : cs.failed = true
          · constructor
            · simp [pipelineStepCore, hsd, hact2, hcr, hcs', hcf, hkeys]
            · intro c hc cs2
              simp [pipelineStepCore, hsd, hact2, hcr, hcs', hcf] at hc
          · have hcf' : cs.failed = false := by simpa using hcf
            constructor
            · simp [pipelineStepCore, hsd, hact2, hcr, hcs', hcf', hkeys]
            · intro c hc cs2
              simp [pipelineStepCore, hsd, hact2, hcr, hcs', hcf'] at hc
              rw [← hc]
              exact hchild cs2
      · constructor
        · simp [pipelineStepCore, hsd, hact2, hcr, hkeys]
        · intro c hc cs2
          simp [pipelineStepCore, hsd, hact2, hcr] at hc
          rw [← hc]
          exact hchild cs2

theorem pipeStep_outKeys {ι χ V : Type} (nm : String) (defs : List (PipelineStageDef ι χ V))
    (t : Int) (p : SolverState (PipelineInner ι χ V))
    (hn : (defs.map (fun sd => sd.solverName)).Nodup)
    (hout : OutputsTotal defs) (hhook : HooksNone defs)
    (hp : OutKeysInv defs p) : OutKeysInv defs (pipeStep nm defs t p).1 := by
  obtain ⟨h1, h2⟩ := hp
  by_cases hterm : p.solved = true ∨ p.failed = true
  · rw [pipeStep_terminal_shape nm defs t p hterm]
    exact ⟨h1, h2⟩
  · push_neg at hterm
    have hns : p.solved = false := by simpa using hterm.1
    have hnf : p.failed = false := by simpa using hterm.2
    rw [pipeStep_nonterminal nm defs t p hns hnf]
    rcases hcore : pipelineStepCore defs t
        (bumpIterations ({ p with setupDone := true } :
          SolverState (PipelineInner ι χ V))) with ⟨r, rex⟩
    have hcoreKeys := pipelineStepCore_outKeys defs t
      (bumpIterations ({ p with setupDone := true } :
        SolverState (PipelineInner ι χ V))) hn hout hhook h1 h2
    rw [hcore] at hcoreKeys
    simp only [] at hcoreKeys
    rcases rex with _ | e
    · have hsb : stepBody (pipelineBehavior nm defs t)
          ({ p with setupDone := true } : SolverState (PipelineInner ι χ V)) =
          (postStep (pipelineBehavior nm defs t) r, none) := by
        simp [stepBody, pipelineBehavior, hcore]
      rw [hsb]
      obtain ⟨f1, _, _, _, _⟩ := pipePostStep_fields nm defs t r
      exact ⟨by rw [f1]; exact hcoreKeys.1, by rw [f1]; exact hcoreKeys.2⟩
    · have hsb : stepBody (pipelineBehavior nm defs t)
          ({ p with setupDone := true } : SolverState (PipelineInner ι χ V)) =
          ({ r with error := some (nm ++ " error: " ++ e), failed := true }, some e) := by
        simp [stepBody, pipelineBehavior, hcore]
      rw [hsb]
      exact ⟨hcoreKeys.1, hcoreKeys.2⟩

theorem iterateSteps_outKeys {ι χ V : Type} (nm : String)
    (defs : List (PipelineStageDef ι χ V))
    (hn : (defs.map (fun sd => sd.solverName)).Nodup)
    (hout : OutputsTotal defs) (hhook : HooksNone defs) :
    ∀ (ts : List Int) (p : SolverState (PipelineInner ι χ V)),
      OutKeysInv defs p → OutKeysInv defs (iterateSteps nm defs ts p) := by
  intro ts
  induction ts with
  | nil => intro p hp; exact hp
  | cons t ts ih =>
      intro p hp
      exact ih _ (pipeStep_outKeys nm defs t p hn hout hhook hp)

/-- C2 (corrected): the claim as stated fails because a stage whose child's
`getOutput()` returns `null` leaves no entry (see the counterexample, a
solved one-stage pipeline with an empty outputs map).  Amended: for
stages with distinct names, no completion callbacks, and children whose
declared outputs are always non-null, the keys of the outputs map are at
every point exactly the names of the completed stages in order — so an
entry exists for a stage iff that stage's child has solved — and after a
run ending with `solved = true`, `getAllOutputs()` holds exactly one entry
per stage definition, keyed by stage name. -/
theorem c2_all_outputs_exactly_stage_names {ι χ V : Type} (nm : String)
    (defs : List (PipelineStageDef ι χ V)) (input : ι)
    (hn : (defs.map (fun sd => sd.solverName)).Nodup)
    (hout : OutputsTotal defs) (hhook : HooksNone defs) (ts : List Int) :
    ((iterateSteps nm defs ts (initPipeline input)).inner.pipelineOutputs.map Prod.fst =
      (defs.take
        (iterateSteps nm defs ts (initPipeline input)).inner.currentPipelineStageIndex).map
        (fun sd => sd.solverName)) ∧
    ((iterateSteps nm defs ts (initPipeline input)).solved = true →
      (getAllOutputs (iterateSteps nm defs ts (initPipeline input))).map Prod.fst =
        defs.map (fun sd => sd.solverName)) := by
  have hkeys := iterateSteps_outKeys nm defs hn hout hhook ts (initPipeline input)
    ⟨rfl, fun c hc => by cases hc⟩
  have hinv := iterateSteps_pipeInv nm defs hhook ts (initPipeline input)
    (initPipeline_pipeInv defs input)
  refine ⟨hkeys.1, fun hsolved => ?_⟩
  have hidx := hinv.2.1 hsolved
  unfold getAllOutputs
  rw [hkeys.1, hidx, List.take_length]

/-- C2 fails as stated: a one-stage pipeline whose child's `getOutput()` is
`null` completes `solve()` with `solved = true` yet `getAllOutputs()` is
empty rather than holding one entry for the stage. -/
theorem c2_counterexample :
    (iterateSteps "PipeDemo" demoDefsNullOut [1, 2, 3] (initPipeline ())).solved = true ∧
    demoDefsNullOut.length = 1 ∧
    (getAllOutputs (iterateSteps "PipeDemo" demoDefsNullOut [1, 2, 3]
      (initPipeline ()))).length = 0 := by
  refine ⟨?_, rfl, ?_⟩ <;> decide

theorem c2_all_outputs_witness :
    (getAllOutputs (iterateSteps "PipeDemo" demoDefs2 [10, 20, 30, 40, 50]
      (initPipeline ()))).map Prod.fst = ["A", "B"] := by
  have h := (c2_all_outputs_exactly_stage_names "PipeDemo" demoDefs2 ()
      (by decide)
      (by
        intro sd hsd q cs
        rcases List.mem_cons.mp hsd with h | h
        · subst h; rfl
        · rcases List.mem_cons.mp h with h2 | h2
          · subst h2; rfl
          · cases h2)
      (by
        intro sd hsd
        rcases List.mem_cons.mp hsd with h | h
        · subst h; rfl
        · rcases List.mem_cons.mp h with h2 | h2
          · subst h2; rfl
          · cases h2)
      [10, 20, 30, 40, 50]).2 (by decide)
  exact h

theorem ratBound (i len : Nat) (g : ℚ) (h0 : 0 ≤ g) (h1 : g ≤ 1) (hi : i + 1 < len) :
    0 ≤ ((i : ℚ) + g) / (len : ℚ) ∧ ((i : ℚ) + g) / (len : ℚ) < 1 := by
  have hlen : (0 : ℚ) < len := by
    have h : 0 < len := by omega
    exact_mod_cast h
  constructor
  · apply div_nonneg
    · positivity
    · exact le_of_lt hlen
  · rw [div_lt_one hlen]
    have h2 : (i : ℚ) + g ≤ (i : ℚ) + 1 := by linarith
    have h3 : ((i : ℚ) + 1) < (len : ℚ) := by exact_mod_cast hi
    linarith

/-- C3 (corrected): the claim's "strictly between 0 and 1 whenever any
stage other than the last is in progress" fails — right after a stage is
instantiated the child's progress is 0 and so is the pipeline's (see the
counterexample).  Amended: `getStageProgress()` is 0 on a freshly
constructed pipeline with at least one stage; it lies in [0, 1) — possibly
exactly 0 — whenever a stage other than the last is current and the active
child's progress fraction is in [0, 1]; and it is exactly 1 once a run
ends `solved` (for stages without completion callbacks). -/
theorem c3_stage_progress_bounds {ι χ V : Type} (nm : String)
    (defs : List (PipelineStageDef ι χ V)) (input : ι) :
    (defs.length ≠ 0 →
      getStageProgress defs (initPipeline (ι := ι) (χ := χ) (V := V) input) = 0) ∧
    (∀ p : SolverState (PipelineInner ι χ V),
      p.inner.currentPipelineStageIndex + 1 < defs.length →
      (∀ c, p.inner.activeSubSolver = some c →
        0 ≤ c.state.progress ∧ c.state.progress ≤ 1) →
      0 ≤ getStageProgress defs p ∧ getStageProgress defs p < 1) ∧
    (HooksNone defs → ∀ ts : List Int,
      (iterateSteps nm defs ts (initPipeline input)).solved = true →
      getStageProgress defs (iterateSteps nm defs ts (initPipeline input)) = 1) := by
  refine ⟨fun hlen => ?_, fun p hidx hprog => ?_, fun hhook ts hsolved => ?_⟩
  · simp [getStageProgress, initPipeline, initSolverState, hlen]
  · have hlen0 : defs.length ≠ 0 := by omega
    rcases hc : p.inner.activeSubSolver with _ | c
    · have hval : getStageProgress defs p =
          ((p.inner.currentPipelineStageIndex : ℚ) + 0) / (defs.length : ℚ) := by
        simp [getStageProgress, hlen0, hc]
      rw [hval]
      exact ratBound _ _ 0 (le_refl 0) (by norm_num) hidx
    · have hval : getStageProgress defs p =
          ((p.inner.currentPipelineStageIndex : ℚ) + c.state.progress) /
            (defs.length : ℚ) := by
        simp [getStageProgress, hlen0, hc]
      rw [hval]
      obtain ⟨hg0, hg1⟩ := hprog c hc
      exact ratBound _ _ c.state.progress hg0 hg1 hidx
  · have hinv := iterateSteps_pipeInv nm defs hhook ts (initPipeline input)
      (initPipeline_pipeInv defs input)
    have hidx := hinv.2.1 hsolved
    have hactnone := hinv.2.2 hidx
    by_cases hlen : defs.length = 0
    · simp [getStageProgress, hlen]
    · have hcast : ((defs.length : ℚ)) ≠ 0 := Nat.cast_ne_zero.mpr hlen
      simp [getStageProgress, hlen, hactnone, hidx, hcast]

/-- C3 fails as stated: on a two-stage pipeline after one `step()` the
first (non-last) stage is in progress, yet `getStageProgress()` is exactly
0, not strictly between 0 and 1. -/
theorem c3_counterexample :
    demoDefs2.length = 2 ∧
    (demoPipe2 [10]).inner.currentPipelineStageIndex = 0 ∧
    (demoPipe2 [10]).inner.activeSubSolver.isSome = true ∧
    getStageProgress demoDefs2 (demoPipe2 [10]) = 0 := by
  have hform : (demoPipe2 [10]).inner.activeSubSolver =
      some { behavior := solveNowBehavior "ChildA",
             state := initSolverState (), output := fun _ => some 1 } := rfl
  have hidx0 : (demoPipe2 [10]).inner.currentPipelineStageIndex = 0 := rfl
  refine ⟨rfl, rfl, by rw [hform]; rfl, ?_⟩
  norm_num [getStageProgress, hform, hidx0, initSolverState, demoDefs2]

theorem c3_stage_progress_witness :
    getStageProgress demoDefs2 (initPipeline (ι := Unit) (χ := Unit) (V := Nat) ()) = 0 ∧
    (0 ≤ getStageProgress demoDefs2 (demoPipe2 [10]) ∧
      getStageProgress demoDefs2 (demoPipe2 [10]) < 1) ∧
    getStageProgress demoDefs2 (demoPipe2 [10, 20, 30, 40, 50]) = 1 := by
  have h := c3_stage_progress_bounds "PipeDemo" demoDefs2 ()
  refine ⟨h.1 (by decide), ?_, ?_⟩
  · refine h.2.1 (demoPipe2 [10]) (by decide) ?_
    intro c hc
    have hform : (demoPipe2 [10]).inner.activeSubSolver =
        some { behavior := solveNowBehavior "ChildA",
               state := initSolverState (), output := fun _ => some 1 } := rfl
    rw [hform] at hc
    injection hc with hcc
    subst hcc
    constructor <;> norm_num [initSolverState]
  · refine h.2.2 ?_ [10, 20, 30, 40, 50] (by decide)
    intro sd hsd
    rcases List.mem_cons.mp hsd with h2 | h2
    · subst h2; rfl
    · rcases List.mem_cons.mp h2 with h3 | h3
      · subst h3; rfl
      · cases h3

theorem lookup_foldl_setEntry {α β : Type} (key : β → String) (f : String → α) :
    ∀ (l : List β) (acc : List (String × α)) (k : String),
      (∀ v, lookupEntry k acc = some v → v = f k) →
      (k ∈ l.map key ∨ (lookupEntry k acc).isSome = true) →
      lookupEntry k (l.foldl (fun a x => setEntry a (key x) (f (key x))) acc) =
        some (f k) := by
  intro l
  induction l with
  | nil =>
      intro acc k hinv hmem
      rcases hmem with h | h
      · cases h
      · rcases hs : lookupEntry k acc with _ | v
        · rw [hs] at h
          simp at h
        · rw [List.foldl_nil, hs, hinv v hs]
  | cons x tl ih =>
      intro acc k hinv hmem
      rw [List.foldl_cons]
      apply ih
      · intro v hv
        by_cases hkn : key x = k
        · subst hkn
          rw [lookupEntry_setEntry_self] at hv
          injection hv with hv2
          exact hv2.symm
        · rw [lookupEntry_setEntry_ne acc (key x) k (f (key x))
            (fun h => hkn h.symm)] at hv
          exact hinv v hv
      · by_cases hkn : key x = k
        · subst hkn
          right
          rw [lookupEntry_setEntry_self]
          rfl
        · rcases hmem with h | h
          · rw [List.map_cons] at h
            rcases List.mem_cons.mp h with h2 | h2
            · exact absurd h2.symm hkn
            · exact Or.inl h2
          · right
            rw [lookupEntry_setEntry_ne acc (key x) k (f (key x))
              (fun hh => hkn hh.symm)]
            exact h

/-- The `getStageStats()` object maps each stage name occurring in the
pipeline definition to the row the loop body computes for that name (the
row depends only on the name, so duplicates collide harmlessly). -/
theorem lookup_getStageStats {ι χ V : Type} (defs : List (PipelineStageDef ι χ V))
    (p : SolverState (PipelineInner ι χ V)) (name : String)
    (h : name ∈ defs.map (fun sd => sd.solverName)) :
    lookupEntry name (getStageStats defs p) = some (stageStatFor defs p name) := by
  unfold getStageStats
  apply lookup_foldl_setEntry (fun sd => sd.solverName) (stageStatFor defs p) defs []
  · intro v hv
    simp [lookupEntry] at hv
  · exact Or.inl h

/-- C1 (corrected): the claim's attribution for completed stages fails —
the code gives a completed stage zero iterations, not the span to the next
stage's first-iteration marker (see the counterexample).  Amended: the
stats row of each stage in the pipeline definition attributes
`currentIteration - firstIterationOfStage[name]` to the stage whose name
equals the current stage name, and zero to every other stage, completed or
not yet started. -/
theorem c1_stage_stats_attribution {ι χ V : Type} (defs : List (PipelineStageDef ι χ V))
    (p : SolverState (PipelineInner ι χ V)) (sd : PipelineStageDef ι χ V)
    (hmem : sd ∈ defs) :
    lookupEntry sd.solverName (getStageStats defs p) =
      some (stageStatFor defs p sd.solverName) ∧
    (sd.solverName ≠ getCurrentStageName defs p →
      (stageStatFor defs p sd.solverName).iterations = 0) ∧
    (sd.solverName = getCurrentStageName defs p →
      (stageStatFor defs p sd.solverName).iterations =
        (p.iterations : Int) -
          ((lookupEntry sd.solverName p.inner.firstIterationOfStage).getD 0 : Nat)) := by
  refine ⟨?_, fun hne => ?_, fun heq => ?_⟩
  · exact lookup_getStageStats defs p sd.solverName
      (List.mem_map.mpr ⟨sd, hmem, rfl⟩)
  · simp [stageStatFor, hne]
  · simp [stageStatFor, heq]

/-- C1 fails as stated: in the two-stage demo pipeline stopped while stage
"B" runs, stage "A" is completed with first-iteration markers 1 ("A") and
3 ("B"), so the claimed span is 3 - 1 = 2, but the reported iteration
count for "A" is 0. -/
theorem c1_counterexample :
    (lookupEntry "A" (getStageStats demoDefs2 (demoPipe2 [10, 20, 30]))).map
      (fun st => st.completed) = some true ∧
    (lookupEntry "A" (getStageStats demoDefs2 (demoPipe2 [10, 20, 30]))).map
      (fun st => st.iterations) = some 0 ∧
    lookupEntry "A" (demoPipe2 [10, 20, 30]).inner.firstIterationOfStage = some 1 ∧
    lookupEntry "B" (demoPipe2 [10, 20, 30]).inner.firstIterationOfStage = some 3 ∧
    ((3 : Int) - 1 ≠ 0) := by
  refine ⟨?_, ?_, ?_, ?_, by decide⟩ <;> decide

theorem c1_stage_stats_witness :
    lookupEntry "A" (getStageStats demoDefs2 (demoPipe2 [10, 20, 30])) =
      some (stageStatFor demoDefs2 (demoPipe2 [10, 20, 30]) "A") ∧
    (stageStatFor demoDefs2 (demoPipe2 [10, 20, 30]) "A").iterations = 0 ∧
    (stageStatFor demoDefs2 (demoPipe2 [10, 20, 30]) "B").iterations =
      ((demoPipe2 [10, 20, 30]).iterations : Int) -
        ((lookupEntry "B"
          (demoPipe2 [10, 20, 30]).inner.firstIterationOfStage).getD 0 : Nat) := by
  have hA := c1_stage_stats_attribution demoDefs2 (demoPipe2 [10, 20, 30])
      (demoStage "A" "ChildA" (some 1)) (by unfold demoDefs2; exact List.mem_cons_self _ _)
  have hB := c1_stage_stats_attribution demoDefs2 (demoPipe2 [10, 20, 30])
      (demoStage "B" "ChildB" (some 2))
      (by unfold demoDefs2; exact List.mem_cons_of_mem _ (List.mem_cons_self _ _))
  exact ⟨hA.1, hA.2.1 (by decide), hB.2.2 (by decide)⟩

theorem iterateSteps_terminal {ι χ V : Type} (nm : String)
    (defs : List (PipelineStageDef ι χ V)) :
    ∀ (ts : List Int) (p : SolverState (PipelineInner ι χ V)),
      p.setupDone = true → (p.solved = true ∨ p.failed = true) →
      iterateSteps nm defs ts p = p := by
  intro ts
  induction ts with
  | nil => intro p _ _; rfl
  | cons t ts ih =>
      intro p hsd hterm
      have h : pipeStep nm defs t p = (p, none) :=
        solverStep_terminal (pipelineBehavior nm defs t) p hsd hterm
      show iterateSteps nm defs ts (pipeStep nm defs t p).1 = p
      rw [h]
      exact ih p hsd hterm

/-- The `_step()` branch where the active child reports `failed` without
throwing: the child's error is copied unwrapped, the pipeline fails, and
the active reference is cleared (the named alias keeps the failed child). -/
theorem pipelineStepCore_childFailed {ι χ V : Type} (defs : List (PipelineStageDef ι χ V))
    (t : Int) (q : SolverState (PipelineInner ι χ V)) (sd : PipelineStageDef ι χ V)
    (c : ChildSolver χ V) (cs : SolverState χ)
    (hsd : defs[q.inner.currentPipelineStageIndex]? = some sd)
    (hact : q.inner.activeSubSolver = some c)
    (hchild : solverStep c.behavior c.state = (cs, none))
    (hcns : cs.solved = false) (hcf : cs.failed = true) :
    pipelineStepCore defs t q =
      ({ q with
          failed := true,
          error := cs.error,
          inner := { q.inner with
            activeSubSolver := none,
            namedSolvers := setEntry q.inner.namedSolvers sd.solverName
              { c with state := cs } } }, none) := by
  simp [pipelineStepCore, hsd, hact, hchild, hcns, hcf]

/-- C6 (corrected): the claim holds when the child fails gracefully
(without its step throwing): in that same outer `step()` the pipeline's
`failed` becomes true, its `error` is exactly the child's error with no
wrapping, the active child reference is cleared, and — since every further
`step()` is then a no-op — no stage definition after the failing one is
ever instantiated, so its named accessor stays undefined forever.  When
the child fails by throwing, however, the pipeline's catch wraps the error
with the pipeline's own name and the active reference is not cleared (see
the counterexample), so the claim as stated is false. -/
theorem c6_graceful_child_failure {ι χ V : Type} (nm : String)
    (defs : List (PipelineStageDef ι χ V)) (t : Int)
    (p : SolverState (PipelineInner ι χ V)) (sd : PipelineStageDef ι χ V)
    (c : ChildSolver χ V) (cs : SolverState χ)
    (hsetup : p.setupDone = true) (hns : p.solved = false) (hnf : p.failed = false)
    (hsd : defs[p.inner.currentPipelineStageIndex]? = some sd)
    (hactive : p.inner.activeSubSolver = some c)
    (hchild : solverStep c.behavior c.state = (cs, none))
    (hcns : cs.solved = false) (hcf : cs.failed = true)
    (hbudget : p.iterations + 1 < p.MAX_ITERATIONS) :
    (pipeStep nm defs t p).2 = none ∧
    (pipeStep nm defs t p).1.failed = true ∧
    (pipeStep nm defs t p).1.error = cs.error ∧
    (pipeStep nm defs t p).1.inner.activeSubSolver = none ∧
    (∀ ts, iterateSteps nm defs ts (pipeStep nm defs t p).1 = (pipeStep nm defs t p).1) ∧
    (∀ name, name ≠ sd.solverName →
      lookupEntry name (pipeStep nm defs t p).1.inner.namedSolvers =
        lookupEntry name p.inner.namedSolvers) ∧
    (∀ sdj : PipelineStageDef ι χ V, sdj.solverName ≠ sd.solverName →
      lookupEntry sdj.solverName p.inner.namedSolvers = none →
      ∀ ts, lookupEntry sdj.solverName
        ((iterateSteps nm defs ts (pipeStep nm defs t p).1).inner.namedSolvers) = none) := by
  have hcoreq := pipelineStepCore_childFailed defs t
    (bumpIterations ({ p with setupDone := true } : SolverState (PipelineInner ι χ V)))
    sd c cs hsd hactive hchild hcns hcf
  have hlt : (bumpIterations ({ p with setupDone := true } :
      SolverState (PipelineInner ι χ V))).iterations <
      (bumpIterations ({ p with setupDone := true } :
      SolverState (PipelineInner ι χ V))).MAX_ITERATIONS := by
    simpa using hbudget
  have hps : pipeStep nm defs t p =
      (postStep (pipelineBehavior nm defs t)
        ({ bumpIterations ({ p with setupDone := true } :
            SolverState (PipelineInner ι χ V)) with
          failed := true,
          error := cs.error,
          inner := { p.inner with
            activeSubSolver := none,
            namedSolvers := setEntry p.inner.namedSolvers sd.solverName
              { c with state := cs } } }), none) := by
    rw [pipeStep_nonterminal nm defs t p hns hnf]
    simp [stepBody, pipelineBehavior, hcoreq]
  have hpost := pipePostStep_nobudget nm defs t
    ({ bumpIterations ({ p with setupDone := true } :
        SolverState (PipelineInner ι χ V)) with
      failed := true,
      error := cs.error,
      inner := { p.inner with
        activeSubSolver := none,
        namedSolvers := setEntry p.inner.namedSolvers sd.solverName
          { c with state := cs } } })
    (by simpa using hbudget)
  rw [hps, hpost]
  have hterm : ∀ ts, iterateSteps nm defs ts
      ({ ({ bumpIterations ({ p with setupDone := true } :
          SolverState (PipelineInner ι χ V)) with
        failed := true,
        error := cs.error,
        inner := { p.inner with
          activeSubSolver := none,
          namedSolvers := setEntry p.inner.namedSolvers sd.solverName
            { c with state := cs } } }) with
        progress := getStageProgress defs
          ({ bumpIterations ({ p with setupDone := true } :
            SolverState (PipelineInner ι χ V)) with
          failed := true,
          error := cs.error,
          inner := { p.inner with
            activeSubSolver := none,
            namedSolvers := setEntry p.inner.namedSolvers sd.solverName
              { c with state := cs } } }) }) = _ :=
    fun ts => iterateSteps_terminal nm defs ts _ rfl (Or.inr rfl)
  refine ⟨rfl, rfl, rfl, rfl, fun ts => hterm ts, fun name hne => ?_, ?_⟩
  · exact lookupEntry_setEntry_ne p.inner.namedSolvers sd.solverName name
      { c with state := cs } hne
  · intro sdj hne hnone ts
    rw [hterm ts]
    show lookupEntry sdj.solverName
      (setEntry p.inner.namedSolvers sd.solverName { c with state := cs }) = none
    rw [lookupEntry_setEntry_ne p.inner.namedSolvers sd.solverName sdj.solverName
      { c with state := cs } hne]
    exact hnone

/-- C6 fails as stated for a child that fails by throwing: the pipeline
fails in the same outer step, but its `error` is the wrapped
"PipeDemo error: boom" rather than the child's own
"ChildA error: boom", and the active child reference is not cleared. -/
theorem c6_counterexample :
    (iterateSteps "PipeDemo" demoDefsThrow [1, 2] (initPipeline ())).failed = true ∧
    ((lookupEntry "A" (iterateSteps "PipeDemo" demoDefsThrow [1, 2]
        (initPipeline ())).inner.namedSolvers).map (fun c => c.state.error)) =
      some (some "ChildA error: boom") ∧
    (iterateSteps "PipeDemo" demoDefsThrow [1, 2] (initPipeline ())).error =
      some "PipeDemo error: boom" ∧
    (iterateSteps "PipeDemo" demoDefsThrow [1, 2] (initPipeline ())).error ≠
      some "ChildA error: boom" ∧
    (iterateSteps "PipeDemo" demoDefsThrow [1, 2]
      (initPipeline ())).inner.activeSubSolver.isSome = true := by
  refine ⟨?_, ?_, ?_, ?_, ?_⟩ <;> decide

theorem c6_graceful_child_failure_witness :
    (pipeStep "PipeGrace" demoDefsGrace 6 (demoPipeGrace [5])).1.failed = true ∧
    (pipeStep "PipeGrace" demoDefsGrace 6 (demoPipeGrace [5])).1.error =
      some "childfail" ∧
    (pipeStep "PipeGrace" demoDefsGrace 6
      (demoPipeGrace [5])).1.inner.activeSubSolver = none ∧
    lookupEntry "B" ((iterateSteps "PipeGrace" demoDefsGrace [7, 8]
      (pipeStep "PipeGrace" demoDefsGrace 6
        (demoPipeGrace [5])).1).inner.namedSolvers) = none := by
  have h := c6_graceful_child_failure "PipeGrace" demoDefsGrace 6 (demoPipeGrace [5])
      (demoFailStage "A" "ChildA" "childfail")
      { behavior := failNowBehavior "ChildA" "childfail",
        state := initSolverState (), output := fun _ => none }
      { initSolverState () with
          setupDone := true,
          iterations := 1,
          failed := true,
          error := some "childfail" }
      rfl rfl rfl rfl rfl rfl rfl rfl (by decide)
  refine ⟨h.2.1, h.2.2.1, h.2.2.2.1, ?_⟩
  exact h.2.2.2.2.2.2 (demoStage "B" "ChildB" (some 2)) (by decide) rfl [7, 8]
